import Mathlib

/-!
Shallow embedding of the vision-slice simulation core: the `GameEngine`
(spawning, physics, splitting, combo/score/timer state) and the
`CollisionSystem` (circle overlap + swept line-circle test with a
per-object hit cooldown).

Numbers are modelled by `ℚ` (the JS code computes with IEEE doubles; we
idealise to exact arithmetic).  `Math.sqrt` appears in the source only
inside comparisons (`sqrt d < r`, `sqrt d > 0.01`) or as a magnitude used
for normalising a direction (`handSpeed`); comparisons are rendered by the
exact equivalent squared comparison, and the magnitude by `sqrtQ`, a
rational square root that is exact on perfect squares (no verified claim
depends on its value elsewhere).  The swept line-circle test is also
embedded over `ℝ` with `Real.sqrt`, mirroring the source text directly,
for the root-characterisation theorem.

`Math.random()` is modelled by threading an explicit stream of rationals
(`List ℚ`); `performance.now()` by an explicit `now` argument.
-/

/-- Stream of pseudo-random draws: models successive `Math.random()` calls. -/
def draw : List ℚ → ℚ × List ℚ
  | [] => (0, [])
  | r :: rs => (r, rs)

/-- A simulated object (fruit, bomb or heart), from the object literal in
`GameEngine._spawnObject` / `GameEngine._splitFruit`. -/
structure Obj where
  id : Nat
  type : String
  isBomb : Bool
  isHeart : Bool
  x : ℚ
  y : ℚ
  vx : ℚ
  vy : ℚ
  radius : ℚ
  rotationSpeed : ℚ
  rotation : ℚ
  active : Bool
  sliceCount : Nat
  maxSlices : Nat
  fadeTimer : ℚ
  fading : Bool
  generation : Nat
  halfSide : Option Nat
deriving Repr, DecidableEq

/-- Per-frame hand snapshot consumed by the engine. -/
structure Hand where
  x : ℚ
  y : ℚ
  vx : ℚ
  vy : ℚ
  speed : ℚ
  visible : Bool
deriving Repr, DecidableEq

/-- The two-sided hand snapshot passed to `update`. -/
structure Hands where
  left : Hand
  right : Hand
deriving Repr, DecidableEq

/-- Which hand registered a hit (`'left'` / `'right'` in the source). -/
inductive Side where
  | left
  | right
deriving Repr, DecidableEq

/-- A hit record produced by `CollisionSystem.checkAll`. -/
structure Hit where
  object : Obj
  hand : Hand
  side : Side
deriving Repr, DecidableEq

/-- State of `CollisionSystem`: constants plus the id → timestamp cooldown
cache (`recentHits`, a `Map` in the source). -/
structure CollisionSystem where
  minSliceSpeed : ℚ
  handRadius : ℚ
  recentHits : List (Nat × ℚ)
  hitCooldown : ℚ
deriving Repr, DecidableEq

/-- `new CollisionSystem()`. -/
def CollisionSystem.init : CollisionSystem :=
  { minSliceSpeed := 0.3, handRadius := 0.05, recentHits := [], hitCooldown := 150 }

/-- Rational square root, exact on perfect squares; models `Math.sqrt`
where the source needs the magnitude itself (see module docstring). -/
def sqrtQ (q : ℚ) : ℚ := (Nat.sqrt q.num.toNat : ℚ) / (Nat.sqrt q.den : ℚ)

namespace CollisionSystem

/-- `CollisionSystem._lineCircleIntersect`.  The source computes
`s = sqrt(disc)`, `t1 = (-b-s)/(2a)`, `t2 = (-b+s)/(2a)` and tests
`0 ≤ t_i ≤ 1`.  Here the range tests are rendered by their exact
square-comparison equivalents (valid for `a > 0`); when `a = 0` the JS
division yields `NaN`, whose range comparisons are all false, so that
case returns `false`. -/
def lineCircleIntersect (x1 y1 x2 y2 cx cy r : ℚ) : Bool :=
  let dx := x2 - x1
  let dy := y2 - y1
  let fx := x1 - cx
  let fy := y1 - cy
  let a := dx * dx + dy * dy
  let b := 2 * (fx * dx + fy * dy)
  let c := fx * fx + fy * fy - r * r
  let disc := b * b - 4 * a * c
  if disc < 0 then false
  else if a = 0 then false
  else
    let t1ok := (b ≤ 0 ∧ disc ≤ b * b) ∧ (0 ≤ b + 2 * a ∨ (b + 2 * a) * (b + 2 * a) ≤ disc)
    let t2ok := (b ≤ 0 ∨ b * b ≤ disc) ∧ (0 ≤ 2 * a + b ∧ disc ≤ (2 * a + b) * (2 * a + b))
    decide (t1ok ∨ t2ok)

/-- Reconstructed previous hand x position, one fixed `1/60` s tick back
along the hand velocity (`prevX` in `checkCollision`). -/
def prevX (hand : Hand) : ℚ := hand.x - hand.vx * (1 / 60)

/-- Reconstructed previous hand y position (`prevY` in `checkCollision`). -/
def prevY (hand : Hand) : ℚ := hand.y - hand.vy * (1 / 60)

/-- Leading coefficient `a = dx² + dy²` of the swept-test quadratic for the
segment `(x1,y1) → (x2,y2)` (the local `a` of `_lineCircleIntersect`). -/
def segA (x1 y1 x2 y2 : ℚ) : ℚ := (x2 - x1) * (x2 - x1) + (y2 - y1) * (y2 - y1)

/-- Linear coefficient `b = 2 (f · Δ)` of the swept-test quadratic (the
local `b` of `_lineCircleIntersect`). -/
def segB (x1 y1 x2 y2 cx cy : ℚ) : ℚ := 2 * ((x1 - cx) * (x2 - x1) + (y1 - cy) * (y2 - y1))

/-- Constant coefficient `c = |f|² − r²` of the swept-test quadratic (the
local `c` of `_lineCircleIntersect`). -/
def segC (x1 y1 cx cy r : ℚ) : ℚ := (x1 - cx) * (x1 - cx) + (y1 - cy) * (y1 - cy) - r * r

/-- `CollisionSystem.checkCollision`.  The static overlap test
`sqrt(dx²+dy²) < combinedRadius` is rendered by its exact equivalent
`0 < combinedRadius ∧ dx²+dy² < combinedRadius²`. -/
def checkCollision (cs : CollisionSystem) (hand : Hand) (obj : Obj) : Bool :=
  if !hand.visible then false
  else if hand.speed < cs.minSliceSpeed then false
  else
    let dx := hand.x - obj.x
    let dy := hand.y - obj.y
    let combinedRadius := cs.handRadius + obj.radius
    if 0 < combinedRadius ∧ dx * dx + dy * dy < combinedRadius * combinedRadius then true
    else
      lineCircleIntersect (prevX hand) (prevY hand) hand.x hand.y obj.x obj.y combinedRadius

/-- Loop body of `CollisionSystem.checkAll`: walk the candidate objects in
order, skip fading objects and objects in the cooldown cache, accept the
first side (`left` before `right`) that collides, stamping the cache. -/
def checkAllLoop (hands : Hands) (now : ℚ) : CollisionSystem → List Obj → List Hit × CollisionSystem
  | cs, [] => ([], cs)
  | cs, obj :: rest =>
    if obj.fading then checkAllLoop hands now cs rest
    else if cs.recentHits.any (fun p => p.1 == obj.id) then checkAllLoop hands now cs rest
    else if cs.checkCollision hands.left obj then
      let out := checkAllLoop hands now
        { cs with recentHits := cs.recentHits ++ [(obj.id, now)] } rest
      (⟨obj, hands.left, Side.left⟩ :: out.1, out.2)
    else if cs.checkCollision hands.right obj then
      let out := checkAllLoop hands now
        { cs with recentHits := cs.recentHits ++ [(obj.id, now)] } rest
      (⟨obj, hands.right, Side.right⟩ :: out.1, out.2)
    else checkAllLoop hands now cs rest

/-- `CollisionSystem.checkAll`: prune cooldown entries older than the
cooldown window, then run the detection loop. -/
def checkAll (cs : CollisionSystem) (hands : Hands) (objects : List Obj) (now : ℚ) :
    List Hit × CollisionSystem :=
  let pruned := { cs with recentHits := cs.recentHits.filter (fun p => !(now - p.2 > cs.hitCooldown)) }
  checkAllLoop hands now pruned objects

end CollisionSystem

/-- The fruit subtype table `FRUIT_TYPES`. -/
def FRUIT_TYPES : List String := ["apple", "orange", "lemon", "lime", "grape", "watermelon"]

/-- Full engine state: the fields set in the `GameEngine` constructor,
plus the engine-scoped id counter (`nextId`, a module global in the
source) and the owned `CollisionSystem`. -/
structure GameEngine where
  score : Nat
  combo : Nat
  bestCombo : Nat
  comboTimer : ℚ
  comboWindow : ℚ
  isGameOver : Bool
  isPaused : Bool
  elapsed : ℚ
  timeRemaining : ℚ
  maxTime : ℚ
  spawnInterval : ℚ
  spawnTimer : ℚ
  minSpawnInterval : ℚ
  bombChance : ℚ
  maxBombChance : ℚ
  heartChance : ℚ
  difficultyRate : ℚ
  gravity : ℚ
  objects : List Obj
  nextId : Nat
  collisionSystem : CollisionSystem
deriving Repr, DecidableEq

/-- The per-frame summary `{spawned, removed, hits}`. -/
structure FrameInfo where
  spawned : List Obj
  removed : List Obj
  hits : List Hit
deriving Repr, DecidableEq

namespace GameEngine

/-- `new GameEngine()`. -/
def init : GameEngine :=
  { score := 0, combo := 0, bestCombo := 0, comboTimer := 0, comboWindow := 1.0,
    isGameOver := false, isPaused := false, elapsed := 0,
    timeRemaining := 30, maxTime := 60,
    spawnInterval := 1.5, spawnTimer := 0, minSpawnInterval := 0.4,
    bombChance := 0.12, maxBombChance := 0.25, heartChance := 0.06,
    difficultyRate := 0.003, gravity := 0.4,
    objects := [], nextId := 0, collisionSystem := CollisionSystem.init }

/-- `GameEngine.reset()` (the cooldown cache is, as in the source, not
cleared). -/
def reset (e : GameEngine) : GameEngine :=
  { e with
    score := 0, combo := 0, bestCombo := 0,
    comboTimer := 0, isGameOver := false, isPaused := false, elapsed := 0,
    timeRemaining := 30, spawnInterval := 1.5, spawnTimer := 0,
    bombChance := 0.12, nextId := 0, objects := [] }

/-- `GameEngine._spawnObject()`: weighted type roll, random position and
velocity, appended to the live set.  The random draws happen in source
evaluation order (type roll, fruit subtype, x, vx, vy, fruit radius,
rotation speed). -/
def spawnObject (e : GameEngine) (rng : List ℚ) : Obj × GameEngine × List ℚ :=
  let d0 := draw rng
  let roll := d0.1
  let tr : Bool × Bool × String × List ℚ :=
    if roll < e.bombChance then (true, false, ("bomb"), d0.2)
    else if roll < e.bombChance + e.heartChance then (false, true, ("heart"), d0.2)
    else
      let dT := draw d0.2
      (false, false, FRUIT_TYPES.getD (Int.floor (dT.1 * 6)).toNat ("apple"), dT.2)
  let isBomb := tr.1
  let isHeart := tr.2.1
  let ty := tr.2.2.1
  let rng1 := tr.2.2.2
  let dX := draw rng1
  let dVx := draw dX.2
  let dVy := draw dVx.2
  let rd : ℚ × List ℚ :=
    if isBomb then (0.035, dVy.2)
    else if isHeart then (0.03, dVy.2)
    else
      let dR := draw dVy.2
      (0.028 + dR.1 * 0.014, dR.2)
  let dRot := draw rd.2
  let id := e.nextId + 1
  let obj : Obj :=
    { id := id, type := ty, isBomb := isBomb, isHeart := isHeart,
      x := 0.08 + dX.1 * 0.84, y := -0.08,
      vx := (dVx.1 - 0.5) * 0.12, vy := 0.08 + dVy.1 * 0.1,
      radius := rd.1,
      rotationSpeed := (dRot.1 - 0.5) * 0.08, rotation := 0,
      active := true, sliceCount := 0, maxSlices := 3,
      fadeTimer := 0, fading := false, generation := 0, halfSide := none }
  (obj, { e with nextId := id, objects := e.objects ++ [obj] }, dRot.2)

/-- Mark the object with the given id as fading with the given fade timer
(the source mutates the object reference in place). -/
def markFadingById (objs : List Obj) (id : Nat) (ft : ℚ) : List Obj :=
  objs.map (fun o => if o.id = id then { o with fading := true, fadeTimer := ft } else o)

/-- Replace the object with the given id (models in-place mutation of a
reference that lives in the list). -/
def replaceById (objs : List Obj) (id : Nat) (o2 : Obj) : List Obj :=
  objs.map (fun o => if o.id = id then o2 else o)

/-- One child half produced by `GameEngine._splitFruit` (loop body,
`sign = 1` for `i = 0` and `-1` for `i = 1`). -/
def mkPiece (obj : Obj) (newGen : Nat) (newRadius perpX perpY spreadSpeed : ℚ)
    (hand : Hand) (sign : ℚ) (half : Nat) (rotR : ℚ) (id : Nat) : Obj :=
  { id := id, type := obj.type, isBomb := false, isHeart := false,
    x := obj.x + perpX * sign * 0.01,
    y := obj.y + perpY * sign * 0.01,
    vx := obj.vx + perpX * sign * spreadSpeed + hand.vx * 0.05,
    vy := obj.vy + perpY * sign * spreadSpeed + hand.vy * 0.05 - 0.05,
    radius := newRadius,
    rotationSpeed := (rotR - 0.5) * 0.15,
    rotation := obj.rotation,
    active := true, sliceCount := 0, maxSlices := 3 - newGen,
    fadeTimer := 0, fading := false, generation := newGen, halfSide := some half }

/-- `GameEngine._splitFruit(obj, hand)`: at generation `≥ 2` mark the
object fading and return no pieces; otherwise produce two halves flying
apart along the perpendicular of the hand velocity.  The guard
`handSpeed > 0.01` is rendered by the exact squared comparison
`vx²+vy² > 0.0001`. -/
def splitFruit (e : GameEngine) (obj : Obj) (hand : Hand) (rng : List ℚ) :
    List Obj × GameEngine × List ℚ :=
  if obj.generation ≥ 2 then
    ([], { e with objects := markFadingById e.objects obj.id 0 }, rng)
  else
    let newGen := obj.generation + 1
    let newRadius := obj.radius * 0.7
    let handSpeedSq := hand.vx * hand.vx + hand.vy * hand.vy
    let handSpeed := sqrtQ handSpeedSq
    let pp : ℚ × ℚ :=
      if handSpeedSq > 0.0001 then (-hand.vy / handSpeed, hand.vx / handSpeed) else (1, 0)
    let spreadSpeed := 0.15 + handSpeed * 0.1
    let d0 := draw rng
    let p0 := mkPiece obj newGen newRadius pp.1 pp.2 spreadSpeed hand 1 0 d0.1 (e.nextId + 1)
    let d1 := draw d0.2
    let p1 := mkPiece obj newGen newRadius pp.1 pp.2 spreadSpeed hand (-1) 1 d1.1 (e.nextId + 2)
    ([p0, p1],
     { e with nextId := e.nextId + 2, objects := e.objects ++ [p0, p1] }, d1.2)

/-- Batch-spawn loop of `update` (spawn, then jitter `x` across the
batch).  The `for (i = 0; i < count; i++)` loop is encoded structurally:
the first argument counts the remaining iterations and `i` is the loop
index, so the loop body runs for `i = 0, …, count-1`. -/
def spawnBatch (count : Nat) : Nat → Nat → GameEngine → List ℚ → GameEngine × List Obj × List ℚ
  | 0, _i, e, rng => (e, [], rng)
  | rem + 1, i, e, rng =>
    let s := spawnObject e rng
    let obj := s.1
    let d := draw s.2.2
    let obj2 := { obj with x := 0.08 + ((i : ℚ) / (count : ℚ)) * 0.84 + (d.1 - 0.5) * 0.1 }
    let eB := { s.2.1 with objects := replaceById s.2.1.objects obj.id obj2 }
    let rest := spawnBatch count rem (i + 1) eB d.2
    (rest.1, obj2 :: rest.2.1, rest.2.2)

/-- Spawn bound factor `min(3, 1 + elapsed/20)` from `update`. -/
def spawnBatchBound (elapsed : ℚ) : ℚ := min 3 (1 + elapsed / 20)

/-- Batch size `1 + floor(random() · min(3, 1 + elapsed/20))`. -/
def spawnCount (r elapsed : ℚ) : Nat := 1 + (Int.floor (r * spawnBatchBound elapsed)).toNat

/-- Spawning section of `update`: accumulate `spawnTimer`; on reaching
`spawnInterval`, reset it to 0 and spawn a batch. -/
def stepSpawn (e : GameEngine) (dt : ℚ) (rng : List ℚ) : GameEngine × List Obj × List ℚ :=
  let e1 := { e with spawnTimer := e.spawnTimer + dt }
  if e1.spawnTimer ≥ e1.spawnInterval then
    let e2 := { e1 with spawnTimer := 0 }
    let d := draw rng
    spawnBatch (spawnCount d.1 e2.elapsed) (spawnCount d.1 e2.elapsed) 0 e2 d.2
  else (e1, [], rng)

/-- Combo decay section of `update`. -/
def stepComboDecay (e : GameEngine) (dt : ℚ) : GameEngine :=
  if 0 < e.combo then
    let ct := e.comboTimer - dt
    if ct ≤ 0 then { e with comboTimer := ct, combo := 0 }
    else { e with comboTimer := ct }
  else e

/-- Physics integration for one active object (fading objects additionally
accumulate `fadeTimer`); `y` uses the already-updated `vy`, and rotation
advances by the raw `rotationSpeed` (not scaled by `dt`). -/
def physObj (gravity dt : ℚ) (o : Obj) : Obj :=
  let vy := o.vy + gravity * dt
  { o with
    fadeTimer := if o.fading then o.fadeTimer + dt else o.fadeTimer,
    vy := vy,
    x := o.x + o.vx * dt,
    y := o.y + vy * dt,
    rotation := o.rotation + o.rotationSpeed }

/-- Removal queueing for one (already integrated) object: fade expiry for
fading objects, bounds checks otherwise.  An object failing both bounds
checks is queued twice, as in the source. -/
def removalChecks (o : Obj) : List Obj :=
  if !o.active then []
  else if o.fading then (if o.fadeTimer > 0.6 then [o] else [])
  else
    (if o.y > 1.2 then [o] else []) ++ (if o.x < -0.15 ∨ o.x > 1.15 then [o] else [])

/-- Physics section of `update`: integrate every active object and collect
the removal queue. -/
def stepPhysics (e : GameEngine) (dt : ℚ) : GameEngine × List Obj :=
  let stepped := e.objects.map (fun o => if o.active then physObj e.gravity dt o else o)
  ({ e with objects := stepped }, stepped.foldr (fun o acc => removalChecks o ++ acc) [])

/-- Resolution of a single hit (bomb / heart / fruit branches of the hit
loop in `update`).  The returned `Bool` is true when the bomb penalty
exhausted the timer, which breaks out of the hit loop. -/
def resolveHit (e : GameEngine) (hit : Hit) (fi : FrameInfo) (rng : List ℚ) :
    GameEngine × FrameInfo × List ℚ × Bool :=
  let obj := hit.object
  if obj.isBomb then
    let e1 := { e with timeRemaining := max 0 (e.timeRemaining - 10) }
    let e2 := { e1 with objects := markFadingById e1.objects obj.id 0 }
    let e3 : GameEngine := { e2 with objects := e2.objects.map (fun other =>
      if other.id ≠ obj.id ∧ other.active = true ∧ other.fading = false then
        { other with fading := true, fadeTimer := 0.4 }
      else other) }
    let fi1 := { fi with hits := fi.hits ++ [hit] }
    if e3.timeRemaining ≤ 0 then ({ e3 with isGameOver := true }, fi1, rng, true)
    else (e3, fi1, rng, false)
  else if obj.isHeart then
    let e1 := { e with timeRemaining := min e.maxTime (e.timeRemaining + 10) }
    let e2 := { e1 with objects := markFadingById e1.objects obj.id 0 }
    (e2, { fi with hits := fi.hits ++ [hit] }, rng, false)
  else
    let sp := splitFruit e obj hit.hand rng
    let fi1 := { fi with spawned := fi.spawned ++ sp.1 }
    let e2 := { sp.2.1 with objects := markFadingById sp.2.1.objects obj.id 0 }
    let combo := e2.combo + 1
    let e3 := { e2 with
      combo := combo, comboTimer := e2.comboWindow, bestCombo := max e2.bestCombo combo }
    let points := 10 * (obj.generation + 1) * max 1 combo
    let e4 := { e3 with score := e3.score + points }
    (e4, { fi1 with hits := fi1.hits ++ [hit] }, rng, false)

/-- The hit-resolution loop of `update` (stops early when a bomb ends the
game). -/
def resolveHits : GameEngine → List Hit → FrameInfo → List ℚ →
    GameEngine × FrameInfo × List ℚ
  | e, [], fi, rng => (e, fi, rng)
  | e, hit :: rest, fi, rng =>
    let r := resolveHit e hit fi rng
    if r.2.2.2 then (r.1, r.2.1, r.2.2.1)
    else resolveHits r.1 rest r.2.1 r.2.2.1

/-- Cleanup section of `update`: mark each queued object inactive, excise
it from the live set and record it as removed. -/
def cleanup : GameEngine → List Obj → GameEngine × List Obj
  | e, [] => (e, [])
  | e, o :: rest =>
    let step : Obj × List Obj :=
      match e.objects.find? (fun x => x.id == o.id) with
      | some c => ({ c with active := false }, e.objects.eraseP (fun x => x.id == o.id))
      | none => ({ o with active := false }, e.objects)
    let r := cleanup { e with objects := step.2 } rest
    (r.1, step.1 :: r.2)

/-- `GameEngine.update(dt, hands)`, with the random stream and the
wall-clock timestamp made explicit. -/
def update (e : GameEngine) (dt : ℚ) (hands : Hands) (now : ℚ) (rng : List ℚ) :
    GameEngine × FrameInfo × List ℚ :=
  if e.isGameOver || e.isPaused then (e, ⟨[], [], []⟩, rng) else
  let e1 := { e with elapsed := e.elapsed + dt, timeRemaining := e.timeRemaining - dt }
  if e1.timeRemaining ≤ 0 then
    ({ e1 with timeRemaining := 0, isGameOver := true }, ⟨[], [], []⟩, rng)
  else
    let e2 := { e1 with
      spawnInterval := max e1.minSpawnInterval (1.5 - e1.elapsed * e1.difficultyRate),
      bombChance := min e1.maxBombChance (0.12 + e1.elapsed * 0.001) }
    let s := stepSpawn e2 dt rng
    let e4 := stepComboDecay s.1 dt
    let p := stepPhysics e4 dt
    let sliceable := p.1.objects.filter (fun o => o.active && !o.fading)
    let ca := CollisionSystem.checkAll p.1.collisionSystem hands sliceable now
    let e6 := { p.1 with collisionSystem := ca.2 }
    let r := resolveHits e6 ca.1 ⟨s.2.1, [], []⟩ s.2.2
    let c := cleanup r.1 p.2
    (c.1, { r.2.1 with removed := c.2 }, r.2.2)

/-- `GameEngine.getActiveObjects()`. -/
def getActiveObjects (e : GameEngine) : List Obj :=
  e.objects.filter (fun o => o.active)

end GameEngine

namespace GameEngine

/-! Field-preservation lemmas: each engine phase leaves the scalar state it
does not own untouched. -/

theorem spawnObject_timeRemaining (e : GameEngine) (rng : List ℚ) :
    (spawnObject e rng).2.1.timeRemaining = e.timeRemaining := rfl

theorem spawnObject_maxTime (e : GameEngine) (rng : List ℚ) :
    (spawnObject e rng).2.1.maxTime = e.maxTime := rfl

theorem spawnObject_score (e : GameEngine) (rng : List ℚ) :
    (spawnObject e rng).2.1.score = e.score := rfl

theorem spawnObject_combo (e : GameEngine) (rng : List ℚ) :
    (spawnObject e rng).2.1.combo = e.combo := rfl

theorem spawnObject_comboTimer (e : GameEngine) (rng : List ℚ) :
    (spawnObject e rng).2.1.comboTimer = e.comboTimer := rfl

theorem spawnObject_isGameOver (e : GameEngine) (rng : List ℚ) :
    (spawnObject e rng).2.1.isGameOver = e.isGameOver := rfl

theorem spawnObject_isPaused (e : GameEngine) (rng : List ℚ) :
    (spawnObject e rng).2.1.isPaused = e.isPaused := rfl

theorem spawnBatch_timeRemaining (count rem i : Nat) (e : GameEngine) (rng : List ℚ) :
    (spawnBatch count rem i e rng).1.timeRemaining = e.timeRemaining := by
  induction rem generalizing i e rng with
  | zero => rfl
  | succ n ih => simp [spawnBatch, ih, spawnObject_timeRemaining]

theorem spawnBatch_maxTime (count rem i : Nat) (e : GameEngine) (rng : List ℚ) :
    (spawnBatch count rem i e rng).1.maxTime = e.maxTime := by
  induction rem generalizing i e rng with
  | zero => rfl
  | succ n ih => simp [spawnBatch, ih, spawnObject_maxTime]

theorem spawnBatch_score (count rem i : Nat) (e : GameEngine) (rng : List ℚ) :
    (spawnBatch count rem i e rng).1.score = e.score := by
  induction rem generalizing i e rng with
  | zero => rfl
  | succ n ih => simp [spawnBatch, ih, spawnObject_score]

theorem spawnBatch_combo (count rem i : Nat) (e : GameEngine) (rng : List ℚ) :
    (spawnBatch count rem i e rng).1.combo = e.combo := by
  induction rem generalizing i e rng with
  | zero => rfl
  | succ n ih => simp [spawnBatch, ih, spawnObject_combo]

theorem spawnBatch_comboTimer (count rem i : Nat) (e : GameEngine) (rng : List ℚ) :
    (spawnBatch count rem i e rng).1.comboTimer = e.comboTimer := by
  induction rem generalizing i e rng with
  | zero => rfl
  | succ n ih => simp [spawnBatch, ih, spawnObject_comboTimer]

theorem spawnBatch_isGameOver (count rem i : Nat) (e : GameEngine) (rng : List ℚ) :
    (spawnBatch count rem i e rng).1.isGameOver = e.isGameOver := by
  induction rem generalizing i e rng with
  | zero => rfl
  | succ n ih => simp [spawnBatch, ih, spawnObject_isGameOver]

theorem spawnBatch_isPaused (count rem i : Nat) (e : GameEngine) (rng : List ℚ) :
    (spawnBatch count rem i e rng).1.isPaused = e.isPaused := by
  induction rem generalizing i e rng with
  | zero => rfl
  | succ n ih => simp [spawnBatch, ih, spawnObject_isPaused]

theorem stepSpawn_timeRemaining (e : GameEngine) (dt : ℚ) (rng : List ℚ) :
    (stepSpawn e dt rng).1.timeRemaining = e.timeRemaining := by
  simp only [stepSpawn]
  split
  · simpa using spawnBatch_timeRemaining _ _ _ _ _
  · rfl

theorem stepSpawn_maxTime (e : GameEngine) (dt : ℚ) (rng : List ℚ) :
    (stepSpawn e dt rng).1.maxTime = e.maxTime := by
  simp only [stepSpawn]
  split
  · simpa using spawnBatch_maxTime _ _ _ _ _
  · rfl

theorem stepSpawn_score (e : GameEngine) (dt : ℚ) (rng : List ℚ) :
    (stepSpawn e dt rng).1.score = e.score := by
  simp only [stepSpawn]
  split
  · simpa using spawnBatch_score _ _ _ _ _
  · rfl

theorem stepSpawn_combo (e : GameEngine) (dt : ℚ) (rng : List ℚ) :
    (stepSpawn e dt rng).1.combo = e.combo := by
  simp only [stepSpawn]
  split
  · simpa using spawnBatch_combo _ _ _ _ _
  · rfl

theorem stepSpawn_comboTimer (e : GameEngine) (dt : ℚ) (rng : List ℚ) :
    (stepSpawn e dt rng).1.comboTimer = e.comboTimer := by
  simp only [stepSpawn]
  split
  · simpa using spawnBatch_comboTimer _ _ _ _ _
  · rfl

theorem stepSpawn_isGameOver (e : GameEngine) (dt : ℚ) (rng : List ℚ) :
    (stepSpawn e dt rng).1.isGameOver = e.isGameOver := by
  simp only [stepSpawn]
  split
  · simpa using spawnBatch_isGameOver _ _ _ _ _
  · rfl

theorem stepSpawn_isPaused (e : GameEngine) (dt : ℚ) (rng : List ℚ) :
    (stepSpawn e dt rng).1.isPaused = e.isPaused := by
  simp only [stepSpawn]
  split
  · simpa using spawnBatch_isPaused _ _ _ _ _
  · rfl

theorem stepComboDecay_timeRemaining (e : GameEngine) (dt : ℚ) :
    (stepComboDecay e dt).timeRemaining = e.timeRemaining := by
  simp only [stepComboDecay]
  split
  · split <;> rfl
  · rfl

theorem stepComboDecay_maxTime (e : GameEngine) (dt : ℚ) :
    (stepComboDecay e dt).maxTime = e.maxTime := by
  simp only [stepComboDecay]
  split
  · split <;> rfl
  · rfl

theorem stepComboDecay_score (e : GameEngine) (dt : ℚ) :
    (stepComboDecay e dt).score = e.score := by
  simp only [stepComboDecay]
  split
  · split <;> rfl
  · rfl

theorem stepComboDecay_isGameOver (e : GameEngine) (dt : ℚ) :
    (stepComboDecay e dt).isGameOver = e.isGameOver := by
  simp only [stepComboDecay]
  split
  · split <;> rfl
  · rfl

theorem stepComboDecay_isPaused (e : GameEngine) (dt : ℚ) :
    (stepComboDecay e dt).isPaused = e.isPaused := by
  simp only [stepComboDecay]
  split
  · split <;> rfl
  · rfl

theorem stepPhysics_timeRemaining (e : GameEngine) (dt : ℚ) :
    (stepPhysics e dt).1.timeRemaining = e.timeRemaining := rfl

theorem stepPhysics_maxTime (e : GameEngine) (dt : ℚ) :
    (stepPhysics e dt).1.maxTime = e.maxTime := rfl

theorem stepPhysics_score (e : GameEngine) (dt : ℚ) :
    (stepPhysics e dt).1.score = e.score := rfl

theorem stepPhysics_combo (e : GameEngine) (dt : ℚ) :
    (stepPhysics e dt).1.combo = e.combo := rfl

theorem stepPhysics_comboTimer (e : GameEngine) (dt : ℚ) :
    (stepPhysics e dt).1.comboTimer = e.comboTimer := rfl

theorem stepPhysics_isGameOver (e : GameEngine) (dt : ℚ) :
    (stepPhysics e dt).1.isGameOver = e.isGameOver := rfl

theorem stepPhysics_isPaused (e : GameEngine) (dt : ℚ) :
    (stepPhysics e dt).1.isPaused = e.isPaused := rfl

theorem stepPhysics_collisionSystem (e : GameEngine) (dt : ℚ) :
    (stepPhysics e dt).1.collisionSystem = e.collisionSystem := rfl

theorem cleanup_timeRemaining (l : List Obj) (e : GameEngine) :
    (cleanup e l).1.timeRemaining = e.timeRemaining := by
  induction l generalizing e with
  | nil => rfl
  | cons o rest ih =>
    simp only [cleanup]
    cases e.objects.find? (fun x => x.id == o.id) <;> simp [ih]

theorem cleanup_maxTime (l : List Obj) (e : GameEngine) :
    (cleanup e l).1.maxTime = e.maxTime := by
  induction l generalizing e with
  | nil => rfl
  | cons o rest ih =>
    simp only [cleanup]
    cases e.objects.find? (fun x => x.id == o.id) <;> simp [ih]

theorem cleanup_score (l : List Obj) (e : GameEngine) :
    (cleanup e l).1.score = e.score := by
  induction l generalizing e with
  | nil => rfl
  | cons o rest ih =>
    simp only [cleanup]
    cases e.objects.find? (fun x => x.id == o.id) <;> simp [ih]

theorem cleanup_combo (l : List Obj) (e : GameEngine) :
    (cleanup e l).1.combo = e.combo := by
  induction l generalizing e with
  | nil => rfl
  | cons o rest ih =>
    simp only [cleanup]
    cases e.objects.find? (fun x => x.id == o.id) <;> simp [ih]

theorem cleanup_comboTimer (l : List Obj) (e : GameEngine) :
    (cleanup e l).1.comboTimer = e.comboTimer := by
  induction l generalizing e with
  | nil => rfl
  | cons o rest ih =>
    simp only [cleanup]
    cases e.objects.find? (fun x => x.id == o.id) <;> simp [ih]

theorem cleanup_isGameOver (l : List Obj) (e : GameEngine) :
    (cleanup e l).1.isGameOver = e.isGameOver := by
  induction l generalizing e with
  | nil => rfl
  | cons o rest ih =>
    simp only [cleanup]
    cases e.objects.find? (fun x => x.id == o.id) <;> simp [ih]

theorem cleanup_isPaused (l : List Obj) (e : GameEngine) :
    (cleanup e l).1.isPaused = e.isPaused := by
  induction l generalizing e with
  | nil => rfl
  | cons o rest ih =>
    simp only [cleanup]
    cases e.objects.find? (fun x => x.id == o.id) <;> simp [ih]

end GameEngine

namespace GameEngine

theorem splitFruit_score (e : GameEngine) (obj : Obj) (hand : Hand) (rng : List ℚ) :
    (splitFruit e obj hand rng).2.1.score = e.score := by
  simp only [splitFruit]
  split <;> rfl

theorem splitFruit_combo (e : GameEngine) (obj : Obj) (hand : Hand) (rng : List ℚ) :
    (splitFruit e obj hand rng).2.1.combo = e.combo := by
  simp only [splitFruit]
  split <;> rfl

theorem splitFruit_comboTimer (e : GameEngine) (obj : Obj) (hand : Hand) (rng : List ℚ) :
    (splitFruit e obj hand rng).2.1.comboTimer = e.comboTimer := by
  simp only [splitFruit]
  split <;> rfl

theorem splitFruit_comboWindow (e : GameEngine) (obj : Obj) (hand : Hand) (rng : List ℚ) :
    (splitFruit e obj hand rng).2.1.comboWindow = e.comboWindow := by
  simp only [splitFruit]
  split <;> rfl

theorem splitFruit_timeRemaining (e : GameEngine) (obj : Obj) (hand : Hand) (rng : List ℚ) :
    (splitFruit e obj hand rng).2.1.timeRemaining = e.timeRemaining := by
  simp only [splitFruit]
  split <;> rfl

theorem splitFruit_maxTime (e : GameEngine) (obj : Obj) (hand : Hand) (rng : List ℚ) :
    (splitFruit e obj hand rng).2.1.maxTime = e.maxTime := by
  simp only [splitFruit]
  split <;> rfl

theorem splitFruit_isGameOver (e : GameEngine) (obj : Obj) (hand : Hand) (rng : List ℚ) :
    (splitFruit e obj hand rng).2.1.isGameOver = e.isGameOver := by
  simp only [splitFruit]
  split <;> rfl

theorem splitFruit_isPaused (e : GameEngine) (obj : Obj) (hand : Hand) (rng : List ℚ) :
    (splitFruit e obj hand rng).2.1.isPaused = e.isPaused := by
  simp only [splitFruit]
  split <;> rfl

end GameEngine

/-- Sample generation-0 fruit (the radius-0.03 object of the spec's
degenerate-split scenario), used to instantiate theorems with hypotheses. -/
def sampleFruit : Obj :=
  { id := 7, type := ("apple"), isBomb := false, isHeart := false,
    x := 0.5, y := 0.5, vx := 0, vy := 0.1, radius := 0.03,
    rotationSpeed := 0, rotation := 0, active := true, sliceCount := 0,
    maxSlices := 3, fadeTimer := 0, fading := false, generation := 0, halfSide := none }

/-- Sample visible hand moving rightward at speed 0.5. -/
def sampleHand : Hand :=
  { x := 0.5, y := 0.5, vx := 0.5, vy := 0, speed := 0.5, visible := true }

/-- Sample bomb object. -/
def sampleBomb : Obj :=
  { sampleFruit with id := 8, type := ("bomb"), isBomb := true, radius := 0.035 }

/-- Sample fruit hit record. -/
def sampleFruitHit : Hit := { object := sampleFruit, hand := sampleHand, side := Side.left }

namespace GameEngine

/-- Claim C2: splitting a fruit of generation `g < 2` produces exactly two
children of generation `g+1` and radius `0.7 ×` the parent's, appends both
to the live set and returns them; at generation `≥ 2` it produces no
children and marks the object fading with fade timer 0. -/
theorem claimC2 (e : GameEngine) (obj : Obj) (hand : Hand) (rng : List ℚ) :
    (obj.generation < 2 →
      ∃ p0 p1,
        (splitFruit e obj hand rng).1 = [p0, p1] ∧
        p0.generation = obj.generation + 1 ∧ p1.generation = obj.generation + 1 ∧
        p0.radius = obj.radius * 0.7 ∧ p1.radius = obj.radius * 0.7 ∧
        (splitFruit e obj hand rng).2.1.objects = e.objects ++ [p0, p1]) ∧
    (2 ≤ obj.generation →
      (splitFruit e obj hand rng).1 = [] ∧
      ∀ o' ∈ (splitFruit e obj hand rng).2.1.objects,
        o'.id = obj.id → o'.fading = true ∧ o'.fadeTimer = 0) := by
  constructor
  · intro h
    have hg : ¬ (obj.generation ≥ 2) := by omega
    simp only [splitFruit, if_neg hg]
    exact ⟨_, _, rfl, rfl, rfl, rfl, rfl, rfl⟩
  · intro h
    simp only [splitFruit, if_pos h]
    refine ⟨by simp, ?_⟩
    intro o' ho' hid
    simp only [markFadingById, List.mem_map] at ho'
    obtain ⟨o, _, rfl⟩ := ho'
    by_cases hc : o.id = obj.id
    · simp [hc]
    · simp only [if_neg hc]
      simp only [if_neg hc] at hid
      exact absurd hid hc

/-- Witness for C2 at a concrete generation-0 fruit of radius 0.03. -/
theorem claimC2_witness :
    sampleFruit.generation < 2 ∧
    ∃ p0 p1,
      (splitFruit GameEngine.init sampleFruit sampleHand []).1 = [p0, p1] ∧
      p0.generation = sampleFruit.generation + 1 ∧ p1.generation = sampleFruit.generation + 1 ∧
      p0.radius = sampleFruit.radius * 0.7 ∧ p1.radius = sampleFruit.radius * 0.7 ∧
      (splitFruit GameEngine.init sampleFruit sampleHand []).2.1.objects
        = GameEngine.init.objects ++ [p0, p1] :=
  ⟨by norm_num [sampleFruit],
   (claimC2 GameEngine.init sampleFruit sampleHand []).1 (by norm_num [sampleFruit])⟩

/-- Claim C4: resolving a fruit hit adds exactly
`10 · (generation+1) · max 1 combo'` points, where `combo'` is the combo
counter after the increment performed by the same slice. -/
theorem claimC4 (e : GameEngine) (hit : Hit) (fi : FrameInfo) (rng : List ℚ)
    (hb : hit.object.isBomb = false) (hh : hit.object.isHeart = false) :
    (resolveHit e hit fi rng).1.combo = e.combo + 1 ∧
    (resolveHit e hit fi rng).1.score
      = e.score + 10 * (hit.object.generation + 1) * max 1 (e.combo + 1) := by
  simp [resolveHit, hb, hh, splitFruit_score, splitFruit_combo]

/-- Witness for C4: a concrete fruit hit on the initial engine. -/
theorem claimC4_witness :
    sampleFruitHit.object.isBomb = false ∧ sampleFruitHit.object.isHeart = false ∧
    ((resolveHit GameEngine.init sampleFruitHit ⟨[], [], []⟩ []).1.combo
        = GameEngine.init.combo + 1 ∧
     (resolveHit GameEngine.init sampleFruitHit ⟨[], [], []⟩ []).1.score
        = GameEngine.init.score
            + 10 * (sampleFruitHit.object.generation + 1) * max 1 (GameEngine.init.combo + 1)) :=
  ⟨rfl, rfl, claimC4 GameEngine.init sampleFruitHit ⟨[], [], []⟩ [] rfl rfl⟩

end GameEngine

namespace GameEngine

theorem spawnBatch_spawned_length (count rem i : Nat) (e : GameEngine) (rng : List ℚ) :
    (spawnBatch count rem i e rng).2.1.length = rem := by
  induction rem generalizing i e rng with
  | zero => rfl
  | succ n ih => simp [spawnBatch, ih]

theorem spawnBatch_spawnTimer (count rem i : Nat) (e : GameEngine) (rng : List ℚ) :
    (spawnBatch count rem i e rng).1.spawnTimer = e.spawnTimer := by
  induction rem generalizing i e rng with
  | zero => rfl
  | succ n ih => simp [spawnBatch, ih, spawnObject]

/-- Claim C5: when `spawnTimer` reaches `spawnInterval`, the engine resets
it to 0 and spawns a batch of `1 + ⌊random() · min(3, 1 + elapsed/20)⌋`
objects; for `random() ∈ [0,1)` the batch size never exceeds 4, and the
bound factor is non-decreasing in elapsed time. -/
theorem claimC5 (e : GameEngine) (dt : ℚ) (rng : List ℚ)
    (htrig : e.spawnInterval ≤ e.spawnTimer + dt) :
    (stepSpawn e dt rng).1.spawnTimer = 0 ∧
    (stepSpawn e dt rng).2.1.length = spawnCount (draw rng).1 e.elapsed ∧
    (∀ r el : ℚ, 0 ≤ r → r < 1 → spawnCount r el ≤ 4) ∧
    (∀ el1 el2 : ℚ, el1 ≤ el2 → spawnBatchBound el1 ≤ spawnBatchBound el2) := by
  have hcond : ({ e with spawnTimer := e.spawnTimer + dt } : GameEngine).spawnTimer
      ≥ ({ e with spawnTimer := e.spawnTimer + dt } : GameEngine).spawnInterval := htrig
  refine ⟨?_, ?_, ?_, ?_⟩
  · simp only [stepSpawn, if_pos hcond]
    simpa using spawnBatch_spawnTimer _ _ _ _ _
  · simp only [stepSpawn, if_pos hcond]
    simpa using spawnBatch_spawned_length _ _ _ _ _
  · intro r el hr0 hr1
    have hb3 : spawnBatchBound el ≤ 3 := min_le_left _ _
    have hlt : r * spawnBatchBound el < 3 := by
      rcases le_or_lt (spawnBatchBound el) 0 with hb | hb
      · nlinarith
      · nlinarith
    have hfl : Int.floor (r * spawnBatchBound el) < 3 := by
      exact_mod_cast Int.floor_lt.mpr (by exact_mod_cast hlt)
    simp only [spawnCount]
    omega
  · intro el1 el2 h
    exact min_le_min le_rfl (by linarith)

/-- Witness for C5: the initial engine with `dt = 1.5` triggers a spawn. -/
theorem claimC5_witness :
    GameEngine.init.spawnInterval ≤ GameEngine.init.spawnTimer + 1.5 ∧
    ((stepSpawn GameEngine.init 1.5 []).1.spawnTimer = 0 ∧
     (stepSpawn GameEngine.init 1.5 []).2.1.length = spawnCount (draw []).1 GameEngine.init.elapsed ∧
     (∀ r el : ℚ, 0 ≤ r → r < 1 → spawnCount r el ≤ 4) ∧
     (∀ el1 el2 : ℚ, el1 ≤ el2 → spawnBatchBound el1 ≤ spawnBatchBound el2)) :=
  ⟨by norm_num [GameEngine.init], claimC5 GameEngine.init 1.5 [] (by norm_num [GameEngine.init])⟩

end GameEngine

namespace CollisionSystem

theorem checkAllLoop_cooldown (hands : Hands) (now : ℚ) (cs : CollisionSystem)
    (objs : List Obj) (id : Nat) (h : ∃ t, (id, t) ∈ cs.recentHits) :
    ∀ hit ∈ (checkAllLoop hands now cs objs).1, hit.object.id ≠ id := by
  induction objs generalizing cs with
  | nil => simp [checkAllLoop]
  | cons obj rest ih =>
    obtain ⟨t, ht⟩ := h
    have hobj : obj.id ≠ id → ∀ cs' : CollisionSystem, cs'.recentHits = cs.recentHits ++ [(obj.id, now)] →
        ∃ t', (id, t') ∈ cs'.recentHits := by
      intro _ cs' hcs'
      exact ⟨t, by simp [hcs', ht]⟩
    simp only [checkAllLoop]
    split
    · exact ih cs ⟨t, ht⟩
    · rename_i hnofade
      split
      · exact ih cs ⟨t, ht⟩
      · rename_i hnocool
        have hne : obj.id ≠ id := by
          intro he
          apply hnocool
          refine List.any_eq_true.mpr ⟨(id, t), ht, ?_⟩
          simp [he]
        split
        · intro hit hmem
          rcases List.mem_cons.mp hmem with hh | hh
          · rw [hh]
            exact hne
          · exact ih _ (hobj hne _ rfl) hit hh
        · split
          · intro hit hmem
            rcases List.mem_cons.mp hmem with hh | hh
            · rw [hh]
              exact hne
            · exact ih _ (hobj hne _ rfl) hit hh
          · exact ih cs ⟨t, ht⟩

/-- Claim C7: an object stamped into the cooldown cache at time `t0` can
produce no new hit from any `checkAll` whose wall-clock time `now`
satisfies `now - t0 ≤ hitCooldown`, however the hands overlap it. -/
theorem claimC7 (cs : CollisionSystem) (hands : Hands) (objects : List Obj)
    (now t0 : ℚ) (id : Nat)
    (hmem : (id, t0) ∈ cs.recentHits) (hwin : now - t0 ≤ cs.hitCooldown) :
    ∀ hit ∈ (checkAll cs hands objects now).1, hit.object.id ≠ id := by
  apply checkAllLoop_cooldown
  refine ⟨t0, List.mem_filter.mpr ⟨hmem, ?_⟩⟩
  simp only [Bool.not_eq_true', decide_eq_false_iff_not, not_lt]
  exact hwin

end CollisionSystem

/-- Hands snapshot used in concrete instantiations: visible fast left hand
over the sample fruit, nothing on the right. -/
def sampleHands : Hands :=
  { left := sampleHand,
    right := { x := 0, y := 0, vx := 0, vy := 0, speed := 0, visible := false } }

/-- Cooldown cache holding object id 5 stamped at time 10. -/
def sampleCooldownCS : CollisionSystem :=
  { CollisionSystem.init with recentHits := [(5, 10)] }

/-- Witness for C7: id 5 was stamped at time 10; at `now = 100`
(within the 150 ms window) no hit for id 5 is produced. -/
theorem claimC7_witness :
    ((5 : Nat), (10 : ℚ)) ∈ sampleCooldownCS.recentHits ∧
    (100 : ℚ) - 10 ≤ sampleCooldownCS.hitCooldown ∧
    ∀ hit ∈ (CollisionSystem.checkAll sampleCooldownCS sampleHands
        [{ sampleFruit with id := 5 }] 100).1, hit.object.id ≠ 5 :=
  ⟨by simp [sampleCooldownCS], by norm_num [sampleCooldownCS, CollisionSystem.init],
   CollisionSystem.claimC7 sampleCooldownCS sampleHands [{ sampleFruit with id := 5 }] 100 10 5
     (by simp [sampleCooldownCS])
     (by norm_num [sampleCooldownCS, CollisionSystem.init])⟩

namespace CollisionSystem

/-- Claim C10: whenever `checkCollision` reaches the swept line-circle
test the hand passed the `speed ≥ minSliceSpeed` guard (0.3); if the
`speed` field really is the magnitude of `(vx, vy)`, the swept segment has
strictly positive squared length, so the quadratic's leading coefficient
is nonzero and the degenerate `a = 0` fallback of `lineCircleIntersect`
is unreachable. -/
theorem claimC10 (cs : CollisionSystem) (hand : Hand)
    (hspeed : hand.speed * hand.speed = hand.vx * hand.vx + hand.vy * hand.vy)
    (hpos : 0 ≤ hand.speed)
    (hmin : cs.minSliceSpeed = 0.3)
    (hguard : cs.minSliceSpeed ≤ hand.speed) :
    0 < segA (prevX hand) (prevY hand) hand.x hand.y ∧
    segA (prevX hand) (prevY hand) hand.x hand.y ≠ 0 := by
  rw [hmin] at hguard
  have h2 : (0.09 : ℚ) ≤ hand.vx * hand.vx + hand.vy * hand.vy := by nlinarith
  have h3 : 0 < segA (prevX hand) (prevY hand) hand.x hand.y := by
    simp only [segA, prevX, prevY]
    nlinarith
  exact ⟨h3, ne_of_gt h3⟩

/-- Witness for C10: a hand with velocity (0.3, 0.4) and speed 0.5. -/
theorem claimC10_witness :
    (let h : Hand := { x := 0.5, y := 0.5, vx := 0.3, vy := 0.4, speed := 0.5, visible := true };
     h.speed * h.speed = h.vx * h.vx + h.vy * h.vy ∧ 0 ≤ h.speed ∧
     CollisionSystem.init.minSliceSpeed = 0.3 ∧ CollisionSystem.init.minSliceSpeed ≤ h.speed ∧
     (0 < segA (prevX h) (prevY h) h.x h.y ∧ segA (prevX h) (prevY h) h.x h.y ≠ 0)) := by
  refine ⟨by norm_num, by norm_num, by norm_num [CollisionSystem.init], by norm_num [CollisionSystem.init], ?_⟩
  exact claimC10 CollisionSystem.init _ (by norm_num) (by norm_num)
    (by norm_num [CollisionSystem.init]) (by norm_num [CollisionSystem.init])

end CollisionSystem

namespace CollisionSystem

theorem checkCollision_invisible (cs : CollisionSystem) (hand : Hand) (obj : Obj)
    (h : hand.visible = false) : cs.checkCollision hand obj = false := by
  simp [checkCollision, h]

theorem checkAllLoop_nohands (hands : Hands) (now : ℚ) (cs : CollisionSystem) (objs : List Obj)
    (hl : hands.left.visible = false) (hr : hands.right.visible = false) :
    checkAllLoop hands now cs objs = ([], cs) := by
  induction objs generalizing cs with
  | nil => rfl
  | cons obj rest ih =>
    simp [checkAllLoop, checkCollision_invisible _ _ _ hl, checkCollision_invisible _ _ _ hr, ih]

theorem checkAll_nohands (cs : CollisionSystem) (hands : Hands) (objs : List Obj) (now : ℚ)
    (hl : hands.left.visible = false) (hr : hands.right.visible = false) :
    checkAll cs hands objs now
      = ([], { cs with recentHits := cs.recentHits.filter (fun p => !(now - p.2 > cs.hitCooldown)) }) := by
  simp only [checkAll]
  exact checkAllLoop_nohands hands now _ objs hl hr

end CollisionSystem

namespace GameEngine

/-- On the normal path (not game over, not paused, timer still positive
after the decrement) `update` is the composition of its phases. -/
theorem update_normal (e : GameEngine) (dt : ℚ) (hands : Hands) (now : ℚ) (rng : List ℚ)
    (hgo : e.isGameOver = false) (hp : e.isPaused = false)
    (htime : 0 < e.timeRemaining - dt) :
    update e dt hands now rng =
      (let e2 : GameEngine := { e with
          elapsed := e.elapsed + dt, timeRemaining := e.timeRemaining - dt,
          spawnInterval := max e.minSpawnInterval (1.5 - (e.elapsed + dt) * e.difficultyRate),
          bombChance := min e.maxBombChance (0.12 + (e.elapsed + dt) * 0.001) }
       let s := stepSpawn e2 dt rng
       let e4 := stepComboDecay s.1 dt
       let p := stepPhysics e4 dt
       let ca := CollisionSystem.checkAll p.1.collisionSystem hands
         (p.1.objects.filter (fun o => o.active && !o.fading)) now
       let r := resolveHits { p.1 with collisionSystem := ca.2 } ca.1 ⟨s.2.1, [], []⟩ s.2.2
       let c := cleanup r.1 p.2
       (c.1, { r.2.1 with removed := c.2 }, r.2.2)) := by
  have h2 : ¬ (e.timeRemaining - dt ≤ 0) := not_le.mpr htime
  simp [update, hgo, hp, h2]

theorem stepComboDecay_expired (e : GameEngine) (dt : ℚ)
    (h1 : 0 < e.combo) (h2 : e.comboTimer ≤ dt) : (stepComboDecay e dt).combo = 0 := by
  have hct : e.comboTimer - dt ≤ 0 := by linarith
  simp [stepComboDecay, if_pos h1, hct]

/-- Claim C6: combo decay runs before hit resolution inside `update`:
with `combo > 0` and `comboTimer ≤ dt` the decay step resets the streak to
0; a fruit hit resolved afterwards restarts it at exactly 1; and a full
`update` call with no hits leaves `combo = 0`. -/
theorem claimC6 (e : GameEngine) (dt : ℚ) (hands : Hands) (now : ℚ) (rng : List ℚ)
    (hgo : e.isGameOver = false) (hp : e.isPaused = false)
    (htime : 0 < e.timeRemaining - dt)
    (hcombo : 0 < e.combo) (hct : e.comboTimer ≤ dt)
    (hl : hands.left.visible = false) (hr : hands.right.visible = false) :
    (∀ e' : GameEngine, 0 < e'.combo → e'.comboTimer ≤ dt → (stepComboDecay e' dt).combo = 0) ∧
    (∀ (e' : GameEngine) (hit : Hit) (fi : FrameInfo) (rng' : List ℚ),
      e'.combo = 0 → hit.object.isBomb = false → hit.object.isHeart = false →
      (resolveHit e' hit fi rng').1.combo = 1) ∧
    (update e dt hands now rng).1.combo = 0 := by
  refine ⟨fun e' h1 h2 => stepComboDecay_expired e' dt h1 h2, ?_, ?_⟩
  · intro e' hit fi rng' h0 hb hh
    simp [resolveHit, hb, hh, splitFruit_combo, h0]
  · rw [update_normal e dt hands now rng hgo hp htime]
    simp only [CollisionSystem.checkAll_nohands _ hands _ now hl hr]
    simp only [resolveHits, cleanup_combo]
    rw [stepPhysics_combo]
    apply stepComboDecay_expired
    · rw [stepSpawn_combo]
      exact hcombo
    · rw [stepSpawn_comboTimer]
      exact hct

end GameEngine

/-- Hands snapshot with both sides invisible. -/
def sampleNoHands : Hands :=
  { left := { x := 0, y := 0, vx := 0, vy := 0, speed := 0, visible := false },
    right := { x := 0, y := 0, vx := 0, vy := 0, speed := 0, visible := false } }

namespace GameEngine

/-- Witness for C6: the spec scenario `combo = 5`, `comboTimer = 0.0001`,
`update(dt = 0.01)` with no hands. -/
theorem claimC6_witness :
    (let e : GameEngine := { GameEngine.init with combo := 5, comboTimer := 0.0001 };
     e.isGameOver = false ∧ e.isPaused = false ∧ 0 < e.timeRemaining - 0.01 ∧
     0 < e.combo ∧ e.comboTimer ≤ 0.01 ∧
     (update e 0.01 sampleNoHands 0 []).1.combo = 0) := by
  refine ⟨rfl, rfl, by norm_num [GameEngine.init], by norm_num, by norm_num, ?_⟩
  exact (claimC6 _ 0.01 sampleNoHands 0 [] rfl rfl (by norm_num [GameEngine.init])
    (by norm_num) (by norm_num) rfl rfl).2.2

end GameEngine

namespace GameEngine

theorem resolveHit_time_inv (e : GameEngine) (hit : Hit) (fi : FrameInfo) (rng : List ℚ)
    (h0 : 0 ≤ e.timeRemaining) (h1 : e.timeRemaining ≤ e.maxTime) :
    0 ≤ (resolveHit e hit fi rng).1.timeRemaining ∧
    (resolveHit e hit fi rng).1.timeRemaining ≤ (resolveHit e hit fi rng).1.maxTime := by
  have hmax : (0 : ℚ) ≤ e.maxTime := h0.trans h1
  simp only [resolveHit]
  split
  · split
    · exact ⟨le_max_left _ _, by simp; constructor <;> linarith⟩
    · exact ⟨le_max_left _ _, by simp; constructor <;> linarith⟩
  · split
    · exact ⟨le_min hmax (by linarith), by simp⟩
    · constructor
      · simpa [splitFruit_timeRemaining] using h0
      · simpa [splitFruit_timeRemaining, splitFruit_maxTime] using h1

theorem resolveHits_time_inv (hits : List Hit) (e : GameEngine) (fi : FrameInfo) (rng : List ℚ)
    (h0 : 0 ≤ e.timeRemaining) (h1 : e.timeRemaining ≤ e.maxTime) :
    0 ≤ (resolveHits e hits fi rng).1.timeRemaining ∧
    (resolveHits e hits fi rng).1.timeRemaining ≤ (resolveHits e hits fi rng).1.maxTime := by
  induction hits generalizing e fi rng with
  | nil => exact ⟨h0, h1⟩
  | cons hit rest ih =>
    simp only [resolveHits]
    have h := resolveHit_time_inv e hit fi rng h0 h1
    split
    · exact h
    · exact ih _ _ _ h.1 h.2

/-- Claim C1: from any state with `0 ≤ timeRemaining ≤ maxTime`, a call
`update(dt, hands)` with `dt ≥ 0` keeps `0 ≤ timeRemaining ≤ maxTime` and
`combo ≥ 0` — no engine operation (timer decrement, bomb penalty, heart
bonus, combo decay, slice resolution) leaves the valid ranges. -/
theorem claimC1 (e : GameEngine) (dt : ℚ) (hands : Hands) (now : ℚ) (rng : List ℚ)
    (hdt : 0 ≤ dt) (h0 : 0 ≤ e.timeRemaining) (h1 : e.timeRemaining ≤ e.maxTime) :
    (0 ≤ (update e dt hands now rng).1.timeRemaining ∧
     (update e dt hands now rng).1.timeRemaining ≤ (update e dt hands now rng).1.maxTime) ∧
    0 ≤ (update e dt hands now rng).1.combo := by
  refine ⟨?_, Nat.zero_le _⟩
  simp only [update]
  split
  · exact ⟨h0, h1⟩
  · split
    · exact ⟨le_refl 0, h0.trans h1⟩
    · rename_i hnot
      rw [not_le] at hnot
      rw [cleanup_timeRemaining, cleanup_maxTime]
      apply resolveHits_time_inv
      · simp only [stepPhysics_timeRemaining, stepSpawn_timeRemaining,
          stepComboDecay_timeRemaining]
        exact le_of_lt hnot
      · simp only [stepPhysics_timeRemaining, stepSpawn_timeRemaining,
          stepComboDecay_timeRemaining, stepPhysics_maxTime, stepSpawn_maxTime,
          stepComboDecay_maxTime]
        linarith

/-- Witness for C1: one second of simulation from the initial engine. -/
theorem claimC1_witness :
    (0 : ℚ) ≤ 1 ∧ 0 ≤ GameEngine.init.timeRemaining ∧
    GameEngine.init.timeRemaining ≤ GameEngine.init.maxTime ∧
    ((0 ≤ (update GameEngine.init 1 sampleNoHands 0 []).1.timeRemaining ∧
      (update GameEngine.init 1 sampleNoHands 0 []).1.timeRemaining
        ≤ (update GameEngine.init 1 sampleNoHands 0 []).1.maxTime) ∧
     0 ≤ (update GameEngine.init 1 sampleNoHands 0 []).1.combo) :=
  ⟨by norm_num, by norm_num [GameEngine.init], by norm_num [GameEngine.init],
   claimC1 GameEngine.init 1 sampleNoHands 0 [] (by norm_num)
     (by norm_num [GameEngine.init]) (by norm_num [GameEngine.init])⟩

end GameEngine

namespace GameEngine

theorem markFadingById_shape (objs : List Obj) (mid : Nat) (ft : ℚ) :
    ∀ o' ∈ markFadingById objs mid ft,
      ∃ o ∈ objs, o'.id = o.id ∧ (o.fading = true → o'.fading = true) := by
  intro o' h
  simp only [markFadingById, List.mem_map] at h
  obtain ⟨o, ho, rfl⟩ := h
  by_cases hc : o.id = mid
  · exact ⟨o, ho, by simp [hc], fun _ => by simp [hc]⟩
  · exact ⟨o, ho, by simp [hc], fun hf => by simp [hc, hf]⟩

theorem resolveHit_nextId_mono (e : GameEngine) (hit : Hit) (fi : FrameInfo) (rng : List ℚ) :
    e.nextId ≤ (resolveHit e hit fi rng).1.nextId := by
  simp only [resolveHit]
  split
  · split <;> rfl
  · split
    · rfl
    · simp only [splitFruit]
      split <;> simp

theorem resolveHit_objects_shape (e : GameEngine) (hit : Hit) (fi : FrameInfo) (rng : List ℚ) :
    ∀ o' ∈ (resolveHit e hit fi rng).1.objects,
      (∃ o ∈ e.objects, o'.id = o.id ∧ (o.fading = true → o'.fading = true)) ∨
      (e.nextId < o'.id ∧ o'.id ≤ (resolveHit e hit fi rng).1.nextId) := by
  simp only [resolveHit]
  split
  · -- bomb: clear-map over markFadingById
    intro o' ho'
    left
    revert ho'
    split <;>
    · intro ho'
      simp only [List.mem_map] at ho'
      obtain ⟨m, hm, rfl⟩ := ho'
      obtain ⟨o, ho, hmid, hmf⟩ := markFadingById_shape e.objects hit.object.id 0 m hm
      refine ⟨o, ho, ?_, ?_⟩
      · split <;> simpa using hmid
      · intro hf
        split
        · simp
        · simpa using hmf hf
  · split
    · -- heart
      intro o' ho'
      left
      obtain ⟨o, ho, hid, hf⟩ := markFadingById_shape e.objects hit.object.id 0 o' ho'
      exact ⟨o, ho, hid, hf⟩
    · -- fruit
      intro o' ho'
      simp only [splitFruit] at ho' ⊢
      by_cases hg : hit.object.generation ≥ 2
      · rw [if_pos hg] at ho' ⊢
        left
        simp only at ho'
        obtain ⟨m, hm, hid, hf⟩ := markFadingById_shape _ hit.object.id 0 o' ho'
        obtain ⟨o, ho, hid2, hf2⟩ := markFadingById_shape e.objects hit.object.id 0 m hm
        exact ⟨o, ho, hid.trans hid2, fun h => hf (hf2 h)⟩
      · rw [if_neg hg] at ho' ⊢
        simp only at ho'
        obtain ⟨m, hm, hid, hf⟩ := markFadingById_shape _ hit.object.id 0 o' ho'
        rcases List.mem_append.mp hm with hold | hnew
        · exact Or.inl ⟨m, hold, hid, hf⟩
        · right
          simp only [List.mem_cons, List.mem_singleton] at hnew
          rcases hnew with rfl | rfl | h
          · simp only [mkPiece] at hid
            simp [hid]
          · simp only [mkPiece] at hid
            simp [hid]
          · exact absurd h (List.not_mem_nil _)

theorem resolveHit_idBound (e : GameEngine) (hit : Hit) (fi : FrameInfo) (rng : List ℚ)
    (hid : ∀ o ∈ e.objects, o.id ≤ e.nextId) :
    ∀ o ∈ (resolveHit e hit fi rng).1.objects, o.id ≤ (resolveHit e hit fi rng).1.nextId := by
  intro o' ho'
  rcases resolveHit_objects_shape e hit fi rng o' ho' with ⟨o, ho, heq, _⟩ | ⟨_, hle⟩
  · exact heq ▸ (hid o ho).trans (resolveHit_nextId_mono e hit fi rng)
  · exact hle

theorem resolveHit_fading_persist (e : GameEngine) (hit : Hit) (fi : FrameInfo) (rng : List ℚ)
    (id : Nat) (hle : id ≤ e.nextId)
    (h : ∀ o ∈ e.objects, o.id = id → o.fading = true) :
    ∀ o' ∈ (resolveHit e hit fi rng).1.objects, o'.id = id → o'.fading = true := by
  intro o' ho' hid'
  rcases resolveHit_objects_shape e hit fi rng o' ho' with ⟨o, ho, heq, hf⟩ | ⟨hgt, _⟩
  · exact hf (h o ho (heq ▸ hid'))
  · omega

theorem resolveHits_fading_persist (hits : List Hit) (e : GameEngine) (fi : FrameInfo)
    (rng : List ℚ) (id : Nat) (hle : id ≤ e.nextId)
    (h : ∀ o ∈ e.objects, o.id = id → o.fading = true) :
    ∀ o' ∈ (resolveHits e hits fi rng).1.objects, o'.id = id → o'.fading = true := by
  induction hits generalizing e fi rng with
  | nil => exact h
  | cons hit rest ih =>
    simp only [resolveHits]
    split
    · exact resolveHit_fading_persist e hit fi rng id hle h
    · exact ih _ _ _ (hle.trans (resolveHit_nextId_mono e hit fi rng))
        (resolveHit_fading_persist e hit fi rng id hle h)

end GameEngine

namespace GameEngine

theorem resolveHit_bomb_marks (e : GameEngine) (hit : Hit) (fi : FrameInfo) (rng : List ℚ)
    (hb : hit.object.isBomb = true)
    (hinj : ∀ o1 ∈ e.objects, ∀ o2 ∈ e.objects, o1.id = o2.id → o1 = o2) :
    ∀ o ∈ e.objects, o.active = true → o.fading = false →
      ∀ o' ∈ (resolveHit e hit fi rng).1.objects, o'.id = o.id → o'.fading = true := by
  have hobj : (resolveHit e hit fi rng).1.objects
      = (markFadingById e.objects hit.object.id 0).map (fun other =>
          if other.id ≠ hit.object.id ∧ other.active = true ∧ other.fading = false then
            { other with fading := true, fadeTimer := 0.4 }
          else other) := by
    by_cases hc : (max 0 (e.timeRemaining - 10) : ℚ) ≤ 0 <;> simp [resolveHit, hb, hc]
  intro o ho ha hf o' ho' heq
  rw [hobj] at ho'
  simp only [List.mem_map] at ho'
  obtain ⟨m, hm, rfl⟩ := ho'
  simp only [markFadingById, List.mem_map] at hm
  obtain ⟨o2, ho2, rfl⟩ := hm
  have hid2 : o2.id = o.id := by
    revert heq
    split <;> split <;> simp
  have : o2 = o := hinj o2 ho2 o ho hid2
  subst this
  by_cases hc : o2.id = hit.object.id
  · simp [hc]
  · simp only [if_neg hc]
    simp [hc, ha, hf]

/-- Claim C3: resolving a bomb hit applies the fixed 10-second penalty
clamped below at 0 (independent of combo), marks every active non-fading
object as fading for the remainder of the hit loop, and when the timer is
exhausted latches game over and resolves no further hits. -/
theorem claimC3 (e : GameEngine) (hit : Hit) (rest : List Hit) (fi : FrameInfo) (rng : List ℚ)
    (hb : hit.object.isBomb = true)
    (hid : ∀ o ∈ e.objects, o.id ≤ e.nextId)
    (hinj : ∀ o1 ∈ e.objects, ∀ o2 ∈ e.objects, o1.id = o2.id → o1 = o2) :
    (resolveHit e hit fi rng).1.timeRemaining = max 0 (e.timeRemaining - 10) ∧
    (resolveHit e hit fi rng).1.combo = e.combo ∧
    (∀ o ∈ e.objects, o.active = true → o.fading = false →
      ∀ o' ∈ (resolveHits e (hit :: rest) fi rng).1.objects, o'.id = o.id → o'.fading = true) ∧
    ((resolveHit e hit fi rng).2.2.2 = true ↔ (resolveHit e hit fi rng).1.timeRemaining ≤ 0) ∧
    ((resolveHit e hit fi rng).1.timeRemaining ≤ 0 →
      (resolveHit e hit fi rng).1.isGameOver = true ∧
      resolveHits e (hit :: rest) fi rng
        = ((resolveHit e hit fi rng).1, (resolveHit e hit fi rng).2.1,
           (resolveHit e hit fi rng).2.2.1)) := by
  have hTR : (resolveHit e hit fi rng).1.timeRemaining = max 0 (e.timeRemaining - 10) := by
    by_cases hc : (max 0 (e.timeRemaining - 10) : ℚ) ≤ 0 <;> simp [resolveHit, hb, hc]
  have hBRK : (resolveHit e hit fi rng).2.2.2 = true ↔
      max 0 (e.timeRemaining - 10) ≤ 0 := by
    by_cases hc : (max 0 (e.timeRemaining - 10) : ℚ) ≤ 0 <;> simp [resolveHit, hb, hc]
  refine ⟨hTR, ?_, ?_, ?_, ?_⟩
  · by_cases hc : (max 0 (e.timeRemaining - 10) : ℚ) ≤ 0 <;> simp [resolveHit, hb, hc]
  · intro o ho ha hf
    have hstep := resolveHit_bomb_marks e hit fi rng hb hinj o ho ha hf
    simp only [resolveHits]
    split
    · exact hstep
    · exact resolveHits_fading_persist rest _ _ _ o.id
        ((hid o ho).trans (resolveHit_nextId_mono e hit fi rng)) hstep
  · rw [hTR]
    exact hBRK
  · intro hle
    rw [hTR] at hle
    constructor
    · simp [resolveHit, hb, hle]
    · simp only [resolveHits]
      rw [if_pos (hBRK.mpr hle)]

end GameEngine

/-- Bomb hit record used in concrete instantiations. -/
def sampleBombHit : Hit := { object := sampleBomb, hand := sampleHand, side := Side.left }

/-- Engine holding a bomb and a fruit, for the C3 witness. -/
def sampleEngineC3 : GameEngine :=
  { GameEngine.init with objects := [sampleBomb, sampleFruit], nextId := 10 }

namespace GameEngine

/-- Witness for C3: a bomb hit on a two-object engine. -/
theorem claimC3_witness :
    sampleBombHit.object.isBomb = true ∧
    (∀ o ∈ sampleEngineC3.objects, o.id ≤ sampleEngineC3.nextId) ∧
    ((resolveHit sampleEngineC3 sampleBombHit ⟨[], [], []⟩ []).1.timeRemaining
        = max 0 (sampleEngineC3.timeRemaining - 10) ∧
     (resolveHit sampleEngineC3 sampleBombHit ⟨[], [], []⟩ []).1.combo = sampleEngineC3.combo ∧
     (∀ o ∈ sampleEngineC3.objects, o.active = true → o.fading = false →
       ∀ o' ∈ (resolveHits sampleEngineC3 [sampleBombHit] ⟨[], [], []⟩ []).1.objects,
         o'.id = o.id → o'.fading = true) ∧
     ((resolveHit sampleEngineC3 sampleBombHit ⟨[], [], []⟩ []).2.2.2 = true ↔
       (resolveHit sampleEngineC3 sampleBombHit ⟨[], [], []⟩ []).1.timeRemaining ≤ 0) ∧
     ((resolveHit sampleEngineC3 sampleBombHit ⟨[], [], []⟩ []).1.timeRemaining ≤ 0 →
       (resolveHit sampleEngineC3 sampleBombHit ⟨[], [], []⟩ []).1.isGameOver = true ∧
       resolveHits sampleEngineC3 [sampleBombHit] ⟨[], [], []⟩ []
         = ((resolveHit sampleEngineC3 sampleBombHit ⟨[], [], []⟩ []).1,
            (resolveHit sampleEngineC3 sampleBombHit ⟨[], [], []⟩ []).2.1,
            (resolveHit sampleEngineC3 sampleBombHit ⟨[], [], []⟩ []).2.2.1))) := by
  have hid : ∀ o ∈ sampleEngineC3.objects, o.id ≤ sampleEngineC3.nextId := by
    intro o ho
    fin_cases ho <;> norm_num [sampleBomb, sampleFruit, sampleEngineC3]
  have hinj : ∀ o1 ∈ sampleEngineC3.objects, ∀ o2 ∈ sampleEngineC3.objects,
      o1.id = o2.id → o1 = o2 := by
    intro o1 h1 o2 h2 h
    fin_cases h1 <;> fin_cases h2 <;> simp_all [sampleBomb, sampleFruit, sampleEngineC3]
  exact ⟨rfl, hid, claimC3 sampleEngineC3 sampleBombHit [] ⟨[], [], []⟩ [] rfl hid hinj⟩

end GameEngine

namespace CollisionSystem

theorem le_sqrt_iff_sq (D x : ℝ) (hD : 0 ≤ D) : x ≤ Real.sqrt D ↔ x ≤ 0 ∨ x ^ 2 ≤ D := by
  constructor
  · intro h
    rcases le_or_lt x 0 with hx | hx
    · exact Or.inl hx
    · right
      calc x ^ 2 ≤ Real.sqrt D ^ 2 := pow_le_pow_left₀ (le_of_lt hx) h 2
        _ = D := Real.sq_sqrt hD
  · intro h
    rcases h with hx | hx
    · exact hx.trans (Real.sqrt_nonneg D)
    · calc x ≤ |x| := le_abs_self x
        _ = Real.sqrt (x ^ 2) := (Real.sqrt_sq_eq_abs x).symm
        _ ≤ Real.sqrt D := Real.sqrt_le_sqrt hx

/-- Characterisation of "the quadratic `A t² + B t + C` has a real root in
`[0,1]`" (for `A > 0`) by the square-comparison conditions used in the
embedding of `_lineCircleIntersect`. -/
theorem quad_root_interval_iff (A B C : ℝ) (hA : 0 < A) :
    (∃ t : ℝ, 0 ≤ t ∧ t ≤ 1 ∧ A * t ^ 2 + B * t + C = 0) ↔
      (0 ≤ B * B - 4 * A * C ∧
        (((B ≤ 0 ∧ B * B - 4 * A * C ≤ B * B) ∧
          (0 ≤ B + 2 * A ∨ (B + 2 * A) * (B + 2 * A) ≤ B * B - 4 * A * C)) ∨
         ((B ≤ 0 ∨ B * B ≤ B * B - 4 * A * C) ∧
          (0 ≤ 2 * A + B ∧ B * B - 4 * A * C ≤ (2 * A + B) * (2 * A + B))))) := by
  set D : ℝ := B * B - 4 * A * C with hDdef
  have hdiscrim : discrim A B C = D := by
    simp only [discrim, hDdef]
    ring
  rcases lt_or_le D 0 with hD | hD
  · constructor
    · rintro ⟨t, _, _, hroot⟩
      exfalso
      refine quadratic_ne_zero_of_discrim_ne_sq (a := A) (b := B) (c := C) ?_ t ?_
      · intro s
        rw [hdiscrim]
        nlinarith [sq_nonneg s]
      · nlinarith [hroot]
    · rintro ⟨h0, _⟩
      linarith
  · set s : ℝ := Real.sqrt D with hsdef
    have hs0 : 0 ≤ s := Real.sqrt_nonneg D
    have hss : discrim A B C = s * s := by
      rw [hdiscrim, hsdef, Real.mul_self_sqrt hD]
    have h2A : (0 : ℝ) < 2 * A := by linarith
    have hroots : ∀ t : ℝ, (A * t ^ 2 + B * t + C = 0) ↔
        (t = (-B + s) / (2 * A) ∨ t = (-B - s) / (2 * A)) := by
      intro t
      rw [show A * t ^ 2 + B * t + C = A * (t * t) + B * t + C by ring]
      exact quadratic_eq_zero_iff (ne_of_gt hA) hss t
    have ht2_0 : (0 ≤ (-B + s) / (2 * A)) ↔ (B ≤ 0 ∨ B * B ≤ D) := by
      rw [le_div_iff₀ h2A, zero_mul]
      constructor
      · intro h
        have hBs : B ≤ s := by linarith
        rcases (le_sqrt_iff_sq D B hD).mp hBs with h' | h'
        · exact Or.inl h'
        · exact Or.inr (by nlinarith [h'])
      · intro h
        have : B ≤ s := by
          apply (le_sqrt_iff_sq D B hD).mpr
          rcases h with h' | h'
          · exact Or.inl h'
          · exact Or.inr (by nlinarith)
        linarith
    have ht2_1 : ((-B + s) / (2 * A) ≤ 1) ↔ (0 ≤ 2 * A + B ∧ D ≤ (2 * A + B) * (2 * A + B)) := by
      rw [div_le_one h2A]
      constructor
      · intro h
        have hs2 : s ≤ 2 * A + B := by linarith
        have := Real.sqrt_le_iff.mp (hsdef ▸ hs2)
        exact ⟨this.1, by nlinarith [this.2]⟩
      · intro h
        obtain ⟨h1, h2⟩ := h
        have : s ≤ 2 * A + B := by
          rw [hsdef]
          exact Real.sqrt_le_iff.mpr ⟨h1, by nlinarith⟩
        linarith
    have ht1_0 : (0 ≤ (-B - s) / (2 * A)) ↔ (B ≤ 0 ∧ D ≤ B * B) := by
      rw [le_div_iff₀ h2A, zero_mul]
      constructor
      · intro h
        have hs2 : s ≤ -B := by linarith
        have := Real.sqrt_le_iff.mp (hsdef ▸ hs2)
        exact ⟨by linarith [this.1], by nlinarith [this.2]⟩
      · intro h
        obtain ⟨h1, h2⟩ := h
        have : s ≤ -B := by
          rw [hsdef]
          exact Real.sqrt_le_iff.mpr ⟨by linarith, by nlinarith⟩
        linarith
    have ht1_1 : ((-B - s) / (2 * A) ≤ 1) ↔ (0 ≤ B + 2 * A ∨ (B + 2 * A) * (B + 2 * A) ≤ D) := by
      rw [div_le_one h2A]
      constructor
      · intro h
        have hx : -B - 2 * A ≤ s := by linarith
        rcases (le_sqrt_iff_sq D (-B - 2 * A) hD).mp hx with h' | h'
        · exact Or.inl (by linarith)
        · exact Or.inr (by nlinarith [h'])
      · intro h
        have : -B - 2 * A ≤ s := by
          apply (le_sqrt_iff_sq D (-B - 2 * A) hD).mpr
          rcases h with h' | h'
          · exact Or.inl (by linarith)
          · exact Or.inr (by nlinarith)
        linarith
    constructor
    · rintro ⟨t, h0, h1, hroot⟩
      refine ⟨hD, ?_⟩
      rcases (hroots t).mp hroot with rfl | rfl
      · exact Or.inr ⟨ht2_0.mp h0, ht2_1.mp h1⟩
      · exact Or.inl ⟨ht1_0.mp h0, ht1_1.mp h1⟩
    · rintro ⟨_, hcase⟩
      rcases hcase with ⟨hc0, hc1⟩ | ⟨hc0, hc1⟩
      · exact ⟨(-B - s) / (2 * A), ht1_0.mpr hc0, ht1_1.mpr hc1,
          (hroots _).mpr (Or.inr rfl)⟩
      · exact ⟨(-B + s) / (2 * A), ht2_0.mpr hc0, ht2_1.mpr hc1,
          (hroots _).mpr (Or.inl rfl)⟩

/-- General form of C8 over the rational embedding: for a nonzero segment,
`_lineCircleIntersect` returns true iff the swept quadratic has a real root
in `[0,1]`, and a negative discriminant yields `false`. -/
theorem lineCircleIntersect_iff_root (x1 y1 x2 y2 cx cy r : ℚ)
    (ha : segA x1 y1 x2 y2 ≠ 0) :
    (lineCircleIntersect x1 y1 x2 y2 cx cy r = true ↔
      ∃ t : ℝ, 0 ≤ t ∧ t ≤ 1 ∧
        (segA x1 y1 x2 y2 : ℝ) * t ^ 2 + (segB x1 y1 x2 y2 cx cy : ℝ) * t
          + (segC x1 y1 cx cy r : ℝ) = 0) ∧
    (segB x1 y1 x2 y2 cx cy * segB x1 y1 x2 y2 cx cy
        - 4 * segA x1 y1 x2 y2 * segC x1 y1 cx cy r < 0 →
      lineCircleIntersect x1 y1 x2 y2 cx cy r = false) := by
  set a := segA x1 y1 x2 y2 with hadef
  set b := segB x1 y1 x2 y2 cx cy with hbdef
  set c := segC x1 y1 cx cy r with hcdef
  have h0a : 0 ≤ a := by
    rw [hadef]
    unfold segA
    have h1 := mul_self_nonneg (x2 - x1)
    have h2 := mul_self_nonneg (y2 - y1)
    linarith
  have hapos : 0 < a := lt_of_le_of_ne h0a (Ne.symm ha)
  have hAR : (0 : ℝ) < (a : ℝ) := by exact_mod_cast hapos
  have heq : lineCircleIntersect x1 y1 x2 y2 cx cy r
      = (if b * b - 4 * a * c < 0 then false
         else if a = 0 then false
         else decide ((((b ≤ 0 ∧ b * b - 4 * a * c ≤ b * b)
              ∧ (0 ≤ b + 2 * a ∨ (b + 2 * a) * (b + 2 * a) ≤ b * b - 4 * a * c))) ∨
           ((b ≤ 0 ∨ b * b ≤ b * b - 4 * a * c)
              ∧ (0 ≤ 2 * a + b ∧ b * b - 4 * a * c ≤ (2 * a + b) * (2 * a + b))))) := rfl
  have hiff := quad_root_interval_iff (a : ℝ) (b : ℝ) (c : ℝ) hAR
  by_cases hdisc : b * b - 4 * a * c < 0
  · have hfalse : lineCircleIntersect x1 y1 x2 y2 cx cy r = false := by
      rw [heq, if_pos hdisc]
    refine ⟨?_, fun _ => hfalse⟩
    rw [hfalse]
    simp only [Bool.false_eq_true, false_iff]
    intro hex
    have h1 := (hiff.mp hex).1
    have h2 : ((b : ℝ) * b - 4 * a * c) < 0 := by exact_mod_cast hdisc
    linarith
  · have hdiscR : (0 : ℝ) ≤ (b : ℝ) * b - 4 * a * c := by
      have h : (0 : ℚ) ≤ b * b - 4 * a * c := not_lt.mp hdisc
      exact_mod_cast h
    refine ⟨?_, fun h => absurd h hdisc⟩
    rw [heq, if_neg hdisc, if_neg ha, decide_eq_true_iff, hiff]
    constructor
    · intro h
      refine ⟨hdiscR, ?_⟩
      rcases h with h | h
      · exact Or.inl (by exact_mod_cast h)
      · exact Or.inr (by exact_mod_cast h)
    · rintro ⟨_, h⟩
      rcases h with h | h
      · exact Or.inl (by exact_mod_cast h)
      · exact Or.inr (by exact_mod_cast h)

/-- Claim C8: the swept test reconstructs the hand position 1/60 s back
along its velocity and, for a nonzero swept segment, registers a hit iff
the quadratic `a t² + b t + c` (with `a = |Δ|²`, `b = 2 (f · Δ)`,
`c = |f|² − r²`, `r` the combined radius) has a real root `t ∈ [0,1]`;
a negative discriminant yields no collision rather than an error. -/
theorem claimC8 (hand : Hand) (obj : Obj) (cs : CollisionSystem)
    (ha : segA (prevX hand) (prevY hand) hand.x hand.y ≠ 0) :
    (lineCircleIntersect (prevX hand) (prevY hand) hand.x hand.y obj.x obj.y
        (cs.handRadius + obj.radius) = true ↔
      ∃ t : ℝ, 0 ≤ t ∧ t ≤ 1 ∧
        (segA (prevX hand) (prevY hand) hand.x hand.y : ℝ) * t ^ 2
          + (segB (prevX hand) (prevY hand) hand.x hand.y obj.x obj.y : ℝ) * t
          + (segC (prevX hand) (prevY hand) obj.x obj.y (cs.handRadius + obj.radius) : ℝ) = 0) ∧
    (segB (prevX hand) (prevY hand) hand.x hand.y obj.x obj.y
          * segB (prevX hand) (prevY hand) hand.x hand.y obj.x obj.y
        - 4 * segA (prevX hand) (prevY hand) hand.x hand.y
          * segC (prevX hand) (prevY hand) obj.x obj.y (cs.handRadius + obj.radius) < 0 →
      lineCircleIntersect (prevX hand) (prevY hand) hand.x hand.y obj.x obj.y
        (cs.handRadius + obj.radius) = false) :=
  lineCircleIntersect_iff_root _ _ _ _ _ _ _ ha

end CollisionSystem

/-- Fast rightward swipe hand for the C8 witness: at `(0.5, 0)` moving at
30 units/s, so the reconstructed previous position is `(0, 0)`. -/
def sampleSwipeHand : Hand :=
  { x := 0.5, y := 0, vx := 30, vy := 0, speed := 30, visible := true }

/-- Object sitting on the swipe path for the C8 witness. -/
def sampleSwipeObj : Obj := { sampleFruit with x := 0.25, y := 0 }

namespace CollisionSystem

/-- Witness for C8 at a concrete nonzero swept segment. -/
theorem claimC8_witness :
    segA (prevX sampleSwipeHand) (prevY sampleSwipeHand) sampleSwipeHand.x sampleSwipeHand.y ≠ 0 ∧
    (lineCircleIntersect (prevX sampleSwipeHand) (prevY sampleSwipeHand)
        sampleSwipeHand.x sampleSwipeHand.y sampleSwipeObj.x sampleSwipeObj.y
        (CollisionSystem.init.handRadius + sampleSwipeObj.radius) = true ↔
      ∃ t : ℝ, 0 ≤ t ∧ t ≤ 1 ∧
        (segA (prevX sampleSwipeHand) (prevY sampleSwipeHand)
            sampleSwipeHand.x sampleSwipeHand.y : ℝ) * t ^ 2
          + (segB (prevX sampleSwipeHand) (prevY sampleSwipeHand)
              sampleSwipeHand.x sampleSwipeHand.y sampleSwipeObj.x sampleSwipeObj.y : ℝ) * t
          + (segC (prevX sampleSwipeHand) (prevY sampleSwipeHand)
              sampleSwipeObj.x sampleSwipeObj.y
              (CollisionSystem.init.handRadius + sampleSwipeObj.radius) : ℝ) = 0) := by
  have ha : segA (prevX sampleSwipeHand) (prevY sampleSwipeHand)
      sampleSwipeHand.x sampleSwipeHand.y ≠ 0 := by
    norm_num [segA, prevX, prevY, sampleSwipeHand]
  exact ⟨ha, (claimC8 sampleSwipeHand sampleSwipeObj CollisionSystem.init ha).1⟩

end CollisionSystem

theorem draw_head_good (rng : List ℚ) (h : ∀ r ∈ rng, 0 ≤ r ∧ r < 1) :
    0 ≤ (draw rng).1 ∧ (draw rng).1 < 1 := by
  cases rng with
  | nil => norm_num [draw]
  | cons a l => exact h a (List.mem_cons_self a l)

theorem draw_tail_good (rng : List ℚ) (h : ∀ r ∈ rng, 0 ≤ r ∧ r < 1) :
    ∀ r ∈ (draw rng).2, 0 ≤ r ∧ r < 1 := by
  cases rng with
  | nil => simp [draw]
  | cons a l => exact fun r hr => h r (List.mem_cons_of_mem a hr)

namespace GameEngine

theorem stepComboDecay_objects (e : GameEngine) (dt : ℚ) :
    (stepComboDecay e dt).objects = e.objects := by
  simp only [stepComboDecay]
  split
  · split <;> rfl
  · rfl

theorem stepComboDecay_zero (e : GameEngine) (h : 0 < e.combo → 0 < e.comboTimer) :
    (stepComboDecay e 0).combo = e.combo ∧ (stepComboDecay e 0).comboTimer = e.comboTimer := by
  simp only [stepComboDecay]
  split
  · rename_i h1
    have h2 : ¬ (e.comboTimer - 0 ≤ 0) := by
      have := h h1
      rw [sub_zero]
      exact not_le.mpr this
    rw [if_neg h2]
    exact ⟨rfl, by simp⟩
  · exact ⟨rfl, rfl⟩

theorem physObj_zero (g : ℚ) (o : Obj) :
    physObj g 0 o = { o with rotation := o.rotation + o.rotationSpeed } := by
  simp [physObj]

theorem stepPhysics_toRemove (e : GameEngine) (dt : ℚ) :
    ∀ m ∈ (stepPhysics e dt).2, ∃ o ∈ e.objects, o.active = true ∧
      m = physObj e.gravity dt o ∧
      ((o.fading = true ∧ (physObj e.gravity dt o).fadeTimer > 0.6) ∨
       (o.fading = false ∧ ((physObj e.gravity dt o).y > 1.2 ∨
          (physObj e.gravity dt o).x < -0.15 ∨ (physObj e.gravity dt o).x > 1.15))) := by
  simp only [stepPhysics]
  generalize e.objects = l
  induction l with
  | nil =>
    intro m hm
    simp at hm
  | cons o rest ih =>
    intro m hm
    simp only [List.map_cons, List.foldr_cons] at hm
    rcases List.mem_append.mp hm with hhead | htail
    · refine ⟨o, List.mem_cons_self o rest, ?_⟩
      by_cases hact : o.active = true
      · rw [if_pos hact] at hhead
        have hPact : (physObj e.gravity dt o).active = o.active := rfl
        have hPfade : (physObj e.gravity dt o).fading = o.fading := rfl
        unfold removalChecks at hhead
        rw [hPact, hPfade, hact] at hhead
        simp only [Bool.not_true, Bool.false_eq_true, if_false] at hhead
        by_cases hfade : o.fading = true
        · rw [if_pos hfade] at hhead
          by_cases hft : (physObj e.gravity dt o).fadeTimer > 0.6
          · rw [if_pos hft] at hhead
            simp only [List.mem_singleton] at hhead
            subst hhead
            exact ⟨hact, rfl, Or.inl ⟨hfade, hft⟩⟩
          · rw [if_neg hft] at hhead
            simp at hhead
        · have hfade' : o.fading = false := by
            revert hfade
            cases o.fading <;> simp
          rw [if_neg hfade] at hhead
          rcases List.mem_append.mp hhead with h1 | h1
          · by_cases hy : (physObj e.gravity dt o).y > 1.2
            · rw [if_pos hy] at h1
              simp only [List.mem_singleton] at h1
              subst h1
              exact ⟨hact, rfl, Or.inr ⟨hfade', Or.inl hy⟩⟩
            · rw [if_neg hy] at h1
              simp at h1
          · by_cases hx : (physObj e.gravity dt o).x < -0.15 ∨ (physObj e.gravity dt o).x > 1.15
            · rw [if_pos hx] at h1
              simp only [List.mem_singleton] at h1
              subst h1
              exact ⟨hact, rfl, Or.inr ⟨hfade', Or.inr hx⟩⟩
            · rw [if_neg hx] at h1
              simp at h1
      · exfalso
        have hact' : o.active = false := by
          revert hact
          cases o.active <;> simp
        rw [if_neg hact] at hhead
        unfold removalChecks at hhead
        rw [hact'] at hhead
        simp at hhead
    · obtain ⟨o2, ho2, h⟩ := ih m htail
      exact ⟨o2, List.mem_cons_of_mem o ho2, h⟩

theorem cleanup_removed_ids (l : List Obj) (e : GameEngine) :
    ∀ o ∈ (cleanup e l).2, ∃ m ∈ l, o.id = m.id := by
  induction l generalizing e with
  | nil => simp [cleanup]
  | cons m rest ih =>
    simp only [cleanup]
    intro o ho
    cases hfind : e.objects.find? (fun x => x.id == m.id) with
    | none =>
      rw [hfind] at ho
      simp only [List.mem_cons] at ho
      rcases ho with rfl | ho
      · exact ⟨m, List.mem_cons_self m rest, rfl⟩
      · obtain ⟨m2, hm2, hid⟩ := ih _ o ho
        exact ⟨m2, List.mem_cons_of_mem m hm2, hid⟩
    | some c =>
      rw [hfind] at ho
      simp only [List.mem_cons] at ho
      rcases ho with rfl | ho
      · have := List.find?_some hfind
        have hcm : c.id = m.id := by simpa using this
        exact ⟨m, List.mem_cons_self m rest, hcm⟩
      · obtain ⟨m2, hm2, hid⟩ := ih _ o ho
        exact ⟨m2, List.mem_cons_of_mem m hm2, hid⟩

end GameEngine

namespace GameEngine

theorem spawnObject_obj_y (e : GameEngine) (rng : List ℚ) :
    (spawnObject e rng).1.y = -0.08 := rfl

theorem spawnObject_obj_fading (e : GameEngine) (rng : List ℚ) :
    (spawnObject e rng).1.fading = false := rfl

theorem spawnObject_obj_id (e : GameEngine) (rng : List ℚ) :
    (spawnObject e rng).1.id = e.nextId + 1 := rfl

theorem spawnObject_nextId (e : GameEngine) (rng : List ℚ) :
    (spawnObject e rng).2.1.nextId = e.nextId + 1 := rfl

theorem spawnObject_objects (e : GameEngine) (rng : List ℚ) :
    (spawnObject e rng).2.1.objects = e.objects ++ [(spawnObject e rng).1] := rfl

theorem spawnObject_rng_good (e : GameEngine) (rng : List ℚ) (h : ∀ r ∈ rng, 0 ≤ r ∧ r < 1) :
    ∀ r ∈ (spawnObject e rng).2.2, 0 ≤ r ∧ r < 1 := by
  by_cases c1 : (draw rng).1 < e.bombChance
  · simp only [spawnObject, if_pos c1]
    exact draw_tail_good _ (draw_tail_good _ (draw_tail_good _ (draw_tail_good _
      (draw_tail_good _ h))))
  · by_cases c2 : (draw rng).1 < e.bombChance + e.heartChance
    · simp only [spawnObject, if_neg c1, if_pos c2]
      exact draw_tail_good _ (draw_tail_good _ (draw_tail_good _ (draw_tail_good _
        (draw_tail_good _ h))))
    · simp only [spawnObject, if_neg c1, if_neg c2]
      exact draw_tail_good _ (draw_tail_good _ (draw_tail_good _ (draw_tail_good _
        (draw_tail_good _ (draw_tail_good _ (draw_tail_good _ h))))))

theorem map_noop (l : List Obj) (f : Obj → Obj) (h : ∀ o ∈ l, f o = o) : l.map f = l := by
  induction l with
  | nil => rfl
  | cons a t ih =>
    simp only [List.map_cons]
    rw [h a (List.mem_cons_self a t), ih (fun o ho => h o (List.mem_cons_of_mem a ho))]

theorem replaceById_append_fresh (l : List Obj) (obj obj2 : Obj)
    (h : ∀ o ∈ l, o.id ≠ obj.id) :
    replaceById (l ++ [obj]) obj.id obj2 = l ++ [obj2] := by
  unfold replaceById
  rw [List.map_append]
  congr 1
  · exact map_noop l _ (fun o ho => if_neg (h o ho))
  · simp

end GameEngine

namespace GameEngine

theorem spawnBatch_objects_good (count : Nat) (rem : Nat) :
    ∀ (i : Nat) (e : GameEngine) (rng : List ℚ),
      i + rem = count →
      (∀ r ∈ rng, 0 ≤ r ∧ r < 1) →
      (∀ o ∈ e.objects, o.id ≤ e.nextId) →
      (∀ o ∈ (spawnBatch count rem i e rng).1.objects,
         o ∈ e.objects ∨
           (o.fading = false ∧ o.y ≤ 1.2 ∧ -0.15 ≤ o.x ∧ o.x ≤ 1.15)) ∧
      (∀ o ∈ (spawnBatch count rem i e rng).1.objects,
         o.id ≤ (spawnBatch count rem i e rng).1.nextId) := by
  induction rem with
  | zero =>
    intro i e rng _ _ hid
    exact ⟨fun o ho => Or.inl ho, hid⟩
  | succ n ih =>
    intro i e rng hic hrng hid
    have hfreshid : ∀ o ∈ e.objects, o.id ≠ (spawnObject e rng).1.id := by
      intro o ho
      rw [spawnObject_obj_id]
      exact Nat.ne_of_lt (Nat.lt_succ_of_le (hid o ho))
    have hobjsB : (replaceById (spawnObject e rng).2.1.objects (spawnObject e rng).1.id
          ({ (spawnObject e rng).1 with
             x := 0.08 + ((i : ℚ) / (count : ℚ)) * 0.84
               + (((draw (spawnObject e rng).2.2).1) - 0.5) * 0.1 }))
        = e.objects ++ [{ (spawnObject e rng).1 with
             x := 0.08 + ((i : ℚ) / (count : ℚ)) * 0.84
               + (((draw (spawnObject e rng).2.2).1) - 0.5) * 0.1 }] := by
      rw [spawnObject_objects]
      exact replaceById_append_fresh e.objects _ _ hfreshid
    have hxgood : -0.15 ≤ (0.08 + ((i : ℚ) / (count : ℚ)) * 0.84
          + (((draw (spawnObject e rng).2.2).1) - 0.5) * 0.1) ∧
        (0.08 + ((i : ℚ) / (count : ℚ)) * 0.84
          + (((draw (spawnObject e rng).2.2).1) - 0.5) * 0.1) ≤ 1.15 := by
      have hcount : 0 < count := by omega
      have hile : (i : ℚ) / (count : ℚ) ≤ 1 := by
        rw [div_le_one (by exact_mod_cast hcount)]
        exact_mod_cast Nat.le_of_lt (by omega)
      have hige : 0 ≤ (i : ℚ) / (count : ℚ) := by positivity
      have hr := draw_head_good _ (spawnObject_rng_good e rng hrng)
      constructor <;> nlinarith [hr.1, hr.2]
    have hrng' : ∀ r ∈ (draw (spawnObject e rng).2.2).2, 0 ≤ r ∧ r < 1 :=
      draw_tail_good _ (spawnObject_rng_good e rng hrng)
    have hic' : (i + 1) + n = count := by omega
    have hidB : ∀ o ∈ e.objects ++ [{ (spawnObject e rng).1 with
          x := 0.08 + ((i : ℚ) / (count : ℚ)) * 0.84
            + (((draw (spawnObject e rng).2.2).1) - 0.5) * 0.1 }],
        o.id ≤ (spawnObject e rng).2.1.nextId := by
      intro o ho
      rcases List.mem_append.mp ho with h1 | h1
      · rw [spawnObject_nextId]
        exact Nat.le_succ_of_le (hid o h1)
      · simp only [List.mem_singleton] at h1
        subst h1
        rw [spawnObject_nextId]
        exact Nat.le_of_eq (spawnObject_obj_id e rng)
    simp only [spawnBatch]
    rw [hobjsB]
    have hres := ih (i + 1)
      { (spawnObject e rng).2.1 with objects := e.objects ++ [{ (spawnObject e rng).1 with
          x := 0.08 + ((i : ℚ) / (count : ℚ)) * 0.84
            + (((draw (spawnObject e rng).2.2).1) - 0.5) * 0.1 }] }
      (draw (spawnObject e rng).2.2).2 hic' hrng' hidB
    constructor
    · intro o ho
      rcases hres.1 o ho with hin | hgood
      · rcases List.mem_append.mp hin with h1 | h1
        · exact Or.inl h1
        · simp only [List.mem_singleton] at h1
          subst h1
          exact Or.inr ⟨spawnObject_obj_fading e rng, by rw [spawnObject_obj_y]; norm_num,
            hxgood.1, hxgood.2⟩
      · exact Or.inr hgood
    · exact hres.2

end GameEngine

namespace GameEngine

theorem stepSpawn_objects_good (e : GameEngine) (dt : ℚ) (rng : List ℚ)
    (hrng : ∀ r ∈ rng, 0 ≤ r ∧ r < 1)
    (hid : ∀ o ∈ e.objects, o.id ≤ e.nextId) :
    ∀ o ∈ (stepSpawn e dt rng).1.objects,
      o ∈ e.objects ∨ (o.fading = false ∧ o.y ≤ 1.2 ∧ -0.15 ≤ o.x ∧ o.x ≤ 1.15) := by
  simp only [stepSpawn]
  split
  · intro o ho
    exact (spawnBatch_objects_good (spawnCount (draw rng).1 e.elapsed)
      (spawnCount (draw rng).1 e.elapsed) 0 { e with spawnTimer := 0 } (draw rng).2
      (Nat.zero_add _) (draw_tail_good rng hrng) hid).1 o ho
  · intro o ho
    exact Or.inl ho

/-- Claim C9, amended: an `update` call with `dt = 0` that resolves no hit
(here: no visible hand) changes neither score, combo, combo timer nor
`timeRemaining`, and removes only objects that the bounds checks (or fade
expiry) had already queued in the pre-state. -/
theorem claimC9_amended (e : GameEngine) (hands : Hands) (now : ℚ) (rng : List ℚ)
    (hgo : e.isGameOver = false) (hp : e.isPaused = false)
    (htr : 0 < e.timeRemaining)
    (hcombo : 0 < e.combo → 0 < e.comboTimer)
    (hl : hands.left.visible = false) (hr : hands.right.visible = false)
    (hrng : ∀ r ∈ rng, 0 ≤ r ∧ r < 1)
    (hid : ∀ o ∈ e.objects, o.id ≤ e.nextId) :
    (update e 0 hands now rng).1.score = e.score ∧
    (update e 0 hands now rng).1.combo = e.combo ∧
    (update e 0 hands now rng).1.timeRemaining = e.timeRemaining ∧
    (update e 0 hands now rng).1.comboTimer = e.comboTimer ∧
    (update e 0 hands now rng).1.isGameOver = false ∧
    (update e 0 hands now rng).1.isPaused = false ∧
    (∀ o ∈ (update e 0 hands now rng).2.1.removed, ∃ p ∈ e.objects, p.id = o.id ∧
      ((p.fading = true ∧ p.fadeTimer > 0.6) ∨
       (p.fading = false ∧ (p.y > 1.2 ∨ p.x < -0.15 ∨ p.x > 1.15)))) := by
  have htr' : 0 < e.timeRemaining - 0 := by simpa using htr
  rw [update_normal e 0 hands now rng hgo hp htr']
  simp only [CollisionSystem.checkAll_nohands _ hands _ now hl hr]
  simp only [resolveHits]
  have hdecay := stepComboDecay_zero (stepSpawn { e with
      elapsed := e.elapsed + 0, timeRemaining := e.timeRemaining - 0,
      spawnInterval := max e.minSpawnInterval (1.5 - (e.elapsed + 0) * e.difficultyRate),
      bombChance := min e.maxBombChance (0.12 + (e.elapsed + 0) * 0.001) } 0 rng).1
    (by
      rw [stepSpawn_combo, stepSpawn_comboTimer]
      exact hcombo)
  refine ⟨?_, ?_, ?_, ?_, ?_, ?_, ?_⟩
  · rw [cleanup_score]
    simp only [stepPhysics_score, stepComboDecay_score, stepSpawn_score]
  · rw [cleanup_combo]
    rw [stepPhysics_combo, hdecay.1, stepSpawn_combo]
  · rw [cleanup_timeRemaining]
    simp only [stepPhysics_timeRemaining, stepComboDecay_timeRemaining, stepSpawn_timeRemaining]
    simp
  · rw [cleanup_comboTimer]
    rw [stepPhysics_comboTimer, hdecay.2, stepSpawn_comboTimer]
  · rw [cleanup_isGameOver]
    simp only [stepPhysics_isGameOver, stepComboDecay_isGameOver, stepSpawn_isGameOver]
    exact hgo
  · rw [cleanup_isPaused]
    simp only [stepPhysics_isPaused, stepComboDecay_isPaused, stepSpawn_isPaused]
    exact hp
  · intro o ho
    obtain ⟨m, hm, hoid⟩ := cleanup_removed_ids _ _ o ho
    obtain ⟨ob, hob, hact, hmeq, hconds⟩ := stepPhysics_toRemove _ 0 m hm
    rw [stepComboDecay_objects] at hob
    have hgoodness := stepSpawn_objects_good { e with
        elapsed := e.elapsed + 0, timeRemaining := e.timeRemaining - 0,
        spawnInterval := max e.minSpawnInterval (1.5 - (e.elapsed + 0) * e.difficultyRate),
        bombChance := min e.maxBombChance (0.12 + (e.elapsed + 0) * 0.001) } 0 rng hrng hid
    have hzero : ∀ g : ℚ, (physObj g 0 ob).fadeTimer = ob.fadeTimer ∧
        (physObj g 0 ob).y = ob.y ∧ (physObj g 0 ob).x = ob.x ∧
        (physObj g 0 ob).id = ob.id := by
      intro g
      rw [physObj_zero]
      exact ⟨rfl, rfl, rfl, rfl⟩
    obtain ⟨hft, hy, hx, hid'⟩ := hzero _
    rcases hgoodness ob hob with hin | ⟨hgf, hgy, hgx1, hgx2⟩
    · refine ⟨ob, hin, ?_, ?_⟩
      · rw [hoid, hmeq, hid']
      · rcases hconds with ⟨h1, h2⟩ | ⟨h1, h2⟩
        · exact Or.inl ⟨h1, by rw [hft] at h2; exact h2⟩
        · refine Or.inr ⟨h1, ?_⟩
          rw [hy, hx] at h2
          exact h2
    · exfalso
      rcases hconds with ⟨h1, _⟩ | ⟨_, h2⟩
      · rw [hgf] at h1
        exact Bool.false_ne_true h1
      · rw [hy, hx] at h2
        rcases h2 with h2 | h2 | h2 <;> linarith

end GameEngine

/-- The apple object present after one 1.5 s update of the fresh engine
under the `ceRngA` random stream. -/
def ceApple : Obj :=
  { id := 1, type := ("apple"), isBomb := false, isHeart := false,
    x := 2/25, y := 47/50, vx := 0, vy := 17/25, radius := 7/250,
    rotationSpeed := -(1/25), rotation := -(1/25), active := true,
    sliceCount := 0, maxSlices := 3, fadeTimer := 0, fading := false,
    generation := 0, halfSide := none }

/-- The engine state reached from `GameEngine.init` by
`update(1.5, noHands)` under the `ceRngA` random stream. -/
def ceEngine1 : GameEngine :=
  { GameEngine.init with
    elapsed := 3/2, timeRemaining := 57/2,
    spawnInterval := 2991/2000, bombChance := 243/2000,
    objects := [ceApple], nextId := 1 }

/-- Random stream spawning exactly one apple at a known position. -/
def ceRngA : List ℚ := [0, 1/2, 0, 1/2, 1/2, 0, 0, 0, 1/2]

/-- Left hand resting exactly on the apple, moving at speed 0.5. -/
def ceHitHands : Hands :=
  { left := { x := 2/25, y := 47/50, vx := 1/2, vy := 0, speed := 1/2, visible := true },
    right := { x := 0, y := 0, vx := 0, vy := 0, speed := 0, visible := false } }

namespace GameEngine

theorem ceStep1 : (update GameEngine.init 1.5 sampleNoHands 0 ceRngA).1 = ceEngine1 := by
  norm_num [update, stepSpawn, spawnBatch, spawnObject,
    spawnCount, spawnBatchBound, stepComboDecay,
    stepPhysics, physObj, removalChecks, replaceById,
    cleanup, resolveHits, CollisionSystem.checkAll, CollisionSystem.checkAllLoop,
    CollisionSystem.checkCollision, GameEngine.init, CollisionSystem.init, sampleNoHands, ceRngA,
    ceEngine1, ceApple, draw, FRUIT_TYPES, min_def, max_def, Int.floor_zero]

theorem ceStep2 : (update ceEngine1 0 ceHitHands 100 []).1.score = 10 := by
  norm_num [update, stepSpawn, stepComboDecay,
    stepPhysics, physObj, removalChecks,
    cleanup, resolveHits, resolveHit, splitFruit,
    markFadingById, mkPiece, CollisionSystem.checkAll,
    CollisionSystem.checkAllLoop, CollisionSystem.checkCollision, GameEngine.init,
    CollisionSystem.init, ceHitHands, ceEngine1, ceApple, draw, min_def, max_def]

/-- Counterexample to claim C9 as stated: the state `ceEngine1`, reached
from the fresh engine by one legal `update(1.5, noHands)` call, has score
0; calling `update(dt = 0, hands)` with a hand overlapping the on-screen
apple resolves a slice and raises the score to 10, so an `update` with
`dt = 0` is not change-free for arbitrary hand input. -/
theorem claimC9_counterexample :
    (update GameEngine.init 1.5 sampleNoHands 0 ceRngA).1.score = 0 ∧
    (update (update GameEngine.init 1.5 sampleNoHands 0 ceRngA).1
        0 ceHitHands 100 []).1.score = 10 := by
  rw [ceStep1]
  exact ⟨rfl, ceStep2⟩

/-- Witness for the amended C9 at the initial engine with no hands. -/
theorem claimC9_amended_witness :
    GameEngine.init.isGameOver = false ∧ GameEngine.init.isPaused = false ∧
    0 < GameEngine.init.timeRemaining ∧
    (0 < GameEngine.init.combo → 0 < GameEngine.init.comboTimer) ∧
    sampleNoHands.left.visible = false ∧ sampleNoHands.right.visible = false ∧
    (∀ r ∈ ([] : List ℚ), 0 ≤ r ∧ r < 1) ∧
    (∀ o ∈ GameEngine.init.objects, o.id ≤ GameEngine.init.nextId) ∧
    ((update GameEngine.init 0 sampleNoHands 0 []).1.score = GameEngine.init.score ∧
     (update GameEngine.init 0 sampleNoHands 0 []).1.combo = GameEngine.init.combo ∧
     (update GameEngine.init 0 sampleNoHands 0 []).1.timeRemaining
        = GameEngine.init.timeRemaining ∧
     (update GameEngine.init 0 sampleNoHands 0 []).1.comboTimer = GameEngine.init.comboTimer ∧
     (update GameEngine.init 0 sampleNoHands 0 []).1.isGameOver = false ∧
     (update GameEngine.init 0 sampleNoHands 0 []).1.isPaused = false ∧
     (∀ o ∈ (update GameEngine.init 0 sampleNoHands 0 []).2.1.removed,
       ∃ p ∈ GameEngine.init.objects, p.id = o.id ∧
         ((p.fading = true ∧ p.fadeTimer > 0.6) ∨
          (p.fading = false ∧ (p.y > 1.2 ∨ p.x < -0.15 ∨ p.x > 1.15))))) :=
  ⟨rfl, rfl, by norm_num [GameEngine.init], by norm_num [GameEngine.init], rfl, rfl,
   by simp, by simp [GameEngine.init],
   claimC9_amended GameEngine.init sampleNoHands 0 [] rfl rfl
     (by norm_num [GameEngine.init]) (by norm_num [GameEngine.init]) rfl rfl
     (by simp) (by simp [GameEngine.init])⟩

end GameEngine
